import Mathlib

/-!
# Verification of the HappyFox Slack relay (`src/app.js`)

Shallow embedding of the relay bot in `src/app.js`.  The program routes an
"origin" channel message to per-recipient DMs, persists a routing record in a
Postgres table `message_mappings`, and relays thread replies between the origin
thread and the DM threads.

Modelling conventions:
* Slack / Postgres identifiers (`ts`, channel ids, user ids, emails) are
  `String`s, as in the JavaScript source.
* The Postgres table keyed by primary key `channel_ts` is a `List MappingRow`;
  `ON CONFLICT` upsert updates the row with the matching key.
  `created_at TIMESTAMP DEFAULT NOW()` is a `Nat` supplied at insert time.
* External calls (Slack Web API, `say`) are oracles packaged in environment
  structures; a call that can throw is given an `Option`/result type whose
  failure constructor models the thrown exception.
* Each handler is modelled as a pure function returning the list of external
  effects it performed, in order.  An un-caught exception (an `await` outside
  `try/catch` whose oracle reports failure) truncates the effect list at the
  failing call, exactly as the JS exception aborts the rest of the handler.
-/

namespace HappyFox

/-- One element of the `dms` JSONB array: `{ userId, dmTs }`
(`src/app.js:100`). `dmTs` is the timestamp of the DM message, i.e. the root
of the derived per-recipient thread. -/
structure Dm where
  userId : String
  dmTs : String
  deriving DecidableEq

/-- One row of the `message_mappings` table (`src/app.js:20-28`):
`channel_ts TEXT PRIMARY KEY, channel_id TEXT, dms JSONB, not_found JSONB,
created_at TIMESTAMP DEFAULT NOW()`. -/
structure MappingRow where
  channel_ts : String
  channel_id : String
  dms : List Dm
  not_found : List String
  created_at : Nat
  deriving DecidableEq

/-- The `message_mappings` table.  The primary-key constraint (at most one row
per `channel_ts`) holds in every state the program itself produces; lookups are
stated for arbitrary lists and return the first matching row. -/
abbrev Store := List MappingRow

/-- The `DO UPDATE SET dms = $3, not_found = $4, channel_id = $2` clause of the
upsert in `saveMessageMapping` (`src/app.js:36-37`), applied to the row whose
`channel_ts` conflicts: `created_at` (and the key) are not in the SET list. -/
def updRow (channelTs channelId : String) (dms : List Dm)
    (notFound : List String) (r : MappingRow) : MappingRow :=
  if r.channel_ts == channelTs then
    { r with channel_id := channelId, dms := dms, not_found := notFound }
  else r

/-- `saveMessageMapping` (`src/app.js:31-41`):
`INSERT ... ON CONFLICT (channel_ts) DO UPDATE SET dms = $3, not_found = $4,
channel_id = $2`.  On conflict the existing row keeps its `created_at`; on
insert `created_at` defaults to `now` (the `DEFAULT NOW()` column). -/
def saveMessageMapping (s : Store) (channelTs channelId : String)
    (dms : List Dm) (notFound : List String) (now : Nat) : Store :=
  if s.any (fun r => r.channel_ts == channelTs) then
    s.map (updRow channelTs channelId dms notFound)
  else
    s ++ [{ channel_ts := channelTs, channel_id := channelId, dms := dms,
            not_found := notFound, created_at := now }]

/-- `getMapping` (`src/app.js:43-49`):
`SELECT * FROM message_mappings WHERE channel_ts = $1`, returning the (under
the primary key, unique) matching row or `undefined`. -/
def getMapping (s : Store) (channelTs : String) : Option MappingRow :=
  s.find? (fun r => r.channel_ts == channelTs)

/-- `findMappingByDmThread` (`src/app.js:51-63`): scan all rows; return the
first row one of whose `dms` entries has `dmTs` equal to the argument, spread
with `dmThreadTs = found.dmTs`; otherwise `null`.  We return the row together
with that `dmThreadTs` field (`found.dmTs`, which equals the argument since
`find` matched on `d.dmTs === dmTs`). -/
def findMappingByDmThread (s : Store) (dmTs : String) :
    Option (MappingRow × String) :=
  match s with
  | [] => none
  | row :: rest =>
    match row.dms.find? (fun d => d.dmTs == dmTs) with
    | some found => some (row, found.dmTs)
    | none => findMappingByDmThread rest dmTs

/-! ## Recipient extractor (`src/app.js:66-80`)

The JavaScript uses two regexes:
* `text.match(/Email Recipients\s*([\s\S]*?)\s*Email Subject/i)` to cut out
  the recipient block, and
* `emailRegex = /([a-zA-Z0-9._%+-]+@[a-zA-Z0-9.-]+\.[a-zA-Z]{2,})/gi` to list
  the email-shaped tokens inside it.

We embed both by direct backtracking-faithful scanners over `List Char`:
* For the block regex, the engine takes the leftmost start position at which
  the whole pattern can match.  The leading `\s*` is greedy and, since the end
  marker starts with a non-whitespace letter, always consumes the whole
  whitespace run following the start marker.  The lazy `([\s\S]*?)` then grows
  to the smallest length for which the greedy `\s*` plus the literal end
  marker complete, i.e. the capture runs to the first occurrence of the end
  marker, minus the whitespace run immediately preceding it.  If no end marker
  follows a start-marker occurrence, the engine moves on to the next
  occurrence; no occurrence completes ⟹ no match ⟹ `[]`.
* For the email regex with the `g` flag, matching restarts after each match at
  the first position where a match exists.  `[...]+` classes are greedy; since
  `@` is not a local character the local part is exactly the maximal local-char
  run, and the domain backtracks from the maximal domain-char run down to the
  longest prefix followed by a literal `.` and at least two ASCII letters
  (`[a-zA-Z]{2,}` is final, so it just takes the maximal letter run).
-/

/-- JS `\s` restricted to the characters that occur in Slack message text
(space, tab, newline, carriage return, vertical tab, form feed, NBSP). -/
def jsWhitespace (c : Char) : Bool :=
  c == ' ' || c == '\t' || c == '\n' || c == '\r' ||
  c == '\x0b' || c == '\x0c' || c == '\u00A0'

/-- Case-insensitive (`i` flag) prefix test: does `pat` match at the head of
`s`, comparing via `toLower` as the regex engine canonicalises ASCII case? -/
def matchesAtCI : List Char → List Char → Bool
  | [], _ => true
  | _ :: _, [] => false
  | p :: ps, c :: cs => (p.toLower == c.toLower) && matchesAtCI ps cs

/-- Index of the first case-insensitive occurrence of `pat` in `s`, if any. -/
def findIdxCI (pat : List Char) : List Char → Option Nat
  | [] => if matchesAtCI pat [] then some 0 else none
  | c :: cs =>
    if matchesAtCI pat (c :: cs) then some 0
    else (findIdxCI pat cs).map (· + 1)

/-- The literal `Email Recipients` of the block regex (`src/app.js:69`). -/
def recipientsMarker : List Char := "Email Recipients".data

/-- The literal `Email Subject` of both regexes (`src/app.js:69,78`). -/
def subjectMarker : List Char := "Email Subject".data

/-- The literal `Email Content` of the subject regex (`src/app.js:78`). -/
def contentMarker : List Char := "Email Content".data

/-- Drop the trailing whitespace run (the greedy `\s*` that precedes the end
marker, which the lazy capture excludes). -/
def stripWsEnd (s : List Char) : List Char :=
  (s.reverse.dropWhile jsWhitespace).reverse

/-- Capture group of `/Email Recipients\s*([\s\S]*?)\s*Email Subject/i`
(`src/app.js:69`), per the backtracking analysis in the section comment:
scan for the leftmost start-marker occurrence after which the end marker still
occurs; the capture is what lies between the greedy whitespace run following
the start marker and the first end-marker occurrence, trailing whitespace
stripped. -/
def recipientsBlock : List Char → Option (List Char)
  | [] => none
  | s@(_ :: tail) =>
    if matchesAtCI recipientsMarker s then
      match findIdxCI subjectMarker ((s.drop recipientsMarker.length).dropWhile jsWhitespace) with
      | some q =>
        some (stripWsEnd (((s.drop recipientsMarker.length).dropWhile jsWhitespace).take q))
      | none => recipientsBlock tail
    else recipientsBlock tail

/-- Capture group of `/Email Subject\s*([\s\S]*?)Email Content/i`
(`src/app.js:78`); same analysis, but no `\s*` before the end marker, so the
capture runs exactly to the first end-marker occurrence. -/
def subjectCapture : List Char → Option (List Char)
  | [] => none
  | s@(_ :: tail) =>
    if matchesAtCI subjectMarker s then
      match findIdxCI contentMarker ((s.drop subjectMarker.length).dropWhile jsWhitespace) with
      | some q => some (((s.drop subjectMarker.length).dropWhile jsWhitespace).take q)
      | none => subjectCapture tail
    else subjectCapture tail

/-- JS `String.prototype.trim()`. -/
def jsTrim (s : List Char) : List Char :=
  stripWsEnd (s.dropWhile jsWhitespace)

/-- The class `[a-zA-Z0-9._%+-]` (local part of `emailRegex`). -/
def isLocalChar (c : Char) : Bool :=
  c.isAlphanum || c == '.' || c == '_' || c == '%' || c == '+' || c == '-'

/-- The class `[a-zA-Z0-9.-]` (domain part of `emailRegex`). -/
def isDomainChar (c : Char) : Bool :=
  c.isAlphanum || c == '.' || c == '-'

/-- Backtracking split of the domain for `[a-zA-Z0-9.-]+\.[a-zA-Z]{2,}`:
starting from the greedy maximum, find the largest count `d ≥ 1` of domain
characters such that the character of `s2` at index `d` is a literal `.`
followed by at least two ASCII letters; return `d` with that letter run
(maximal, as `{2,}` is greedy and final). -/
def domSplit (s2 : List Char) : Nat → Option (Nat × List Char)
  | 0 => none
  | d + 1 =>
    if s2[d + 1]? == some '.' then
      if 2 ≤ ((s2.drop (d + 2)).takeWhile Char.isAlpha).length then
        some (d + 1, (s2.drop (d + 2)).takeWhile Char.isAlpha)
      else domSplit s2 d
    else domSplit s2 d

/-- Attempt `emailRegex` anchored at the head of `s`: the local part is the
maximal run of local characters (nonempty, `@` is not a local character so the
`+` cannot backtrack usefully), then a literal `@`, then the backtracked
domain split.  Returns the full match. -/
def tryEmailAt (s : List Char) : Option (List Char) :=
  if (s.takeWhile isLocalChar).isEmpty then none
  else
    match s.drop (s.takeWhile isLocalChar).length with
    | c :: s2 =>
      if c == '@' then
        match domSplit s2 (s2.takeWhile isDomainChar).length with
        | some (d, tld) =>
          some (s.takeWhile isLocalChar ++ '@' :: (s2.take d ++ '.' :: tld))
        | none => none
      else none
    | [] => none

/-- The `g`-flag scan of `emailRegex`: successive leftmost matches, each scan
resuming after the previous match.  Fuel is the length of the remaining text;
every iteration consumes at least one character (a match is nonempty), so the
fuel never runs out. -/
def scanEmailsAux : Nat → List Char → List (List Char)
  | 0, _ => []
  | _ + 1, [] => []
  | fuel + 1, s@(_ :: tail) =>
    match tryEmailAt s with
    | some m => m :: scanEmailsAux fuel (s.drop m.length)
    | none => scanEmailsAux fuel tail

/-- All matches of `emailRegex` in `s` (`recipientsBlock.match(emailRegex)`,
`src/app.js:72`). -/
def scanEmails (s : List Char) : List (List Char) :=
  scanEmailsAux s.length s

/-- `[...new Set(list)]` — deduplicate keeping first occurrences
(`src/app.js:73`). -/
def dedupKeepFirst (l : List String) : List String :=
  l.foldl (fun acc e => if e ∈ acc then acc else acc ++ [e]) []

/-- `extractRecipientEmails` (`src/app.js:68-74`): cut the bounded block, list
the email-shaped tokens inside it, lower-case each, deduplicate. -/
def extractRecipientEmails (text : String) : List String :=
  match recipientsBlock text.data with
  | none => []
  | some block =>
    dedupKeepFirst ((scanEmails block).map (fun m => String.mk (m.map Char.toLower)))

/-- `extractEmailSubject` (`src/app.js:77-80`): the trimmed capture between
`Email Subject` and `Email Content`, else `"N/A"`. -/
def extractEmailSubject (text : String) : String :=
  match subjectCapture text.data with
  | some cap => String.mk (jsTrim cap)
  | none => "N/A"

/-- Well-formed email shape per `emailRegex`: nonempty local part of local
characters, `@`, nonempty domain of domain characters, `.`, and a TLD of at
least two ASCII letters. -/
def isEmailShaped (m : List Char) : Prop :=
  ∃ loc dom tld, m = loc ++ '@' :: (dom ++ '.' :: tld) ∧
    loc ≠ [] ∧ loc.all isLocalChar ∧
    dom ≠ [] ∧ dom.all isDomainChar ∧
    tld.all Char.isAlpha ∧ 2 ≤ tld.length

/-! ## The two Slack event handlers (`src/app.js:83-116` and `119-214`)

Each handler is embedded as a pure function of (oracle environment, store,
event) returning the ordered list of external calls it performs.  Oracles for
calls inside `try/catch` report failure by an `Option`/result value (the JS
`catch` swallows it); oracles for calls *not* inside `try/catch` report
failure that truncates the rest of the handler, as the un-caught rejection
aborts the JS `async` function.  The store itself is pure here; only the
origin-message handler writes it (via `saveMessageMapping`). -/

/-- One external call made by a handler, in program order. -/
inductive Effect where
  | lookupUser (email : String)
  | postDm (userId : String) (text : String)
  | putMapping (channelTs channelId : String) (dms : List Dm) (notFound : List String)
  | sayText (text : String)
  | lookupDirect (channelTs : String)
  | lookupReverse (dmTs : String)
  | usersInfo (userId : String)
  | fetchHistory (channelId : String)
  | fetchPermalink (channelId : String)
  | notify (channel : String) (text : String)
  | sendDm (userId : String) (dmTs : String) (text : String)
  | sendOrigin (channelId : String) (threadTs : String) (text : String)
  deriving DecidableEq

/-- Result of `client.users.lookupByEmail` (`src/app.js:94`): resolved user,
`ok`-but-no-user, or a thrown error (both of the latter land in `notFound`
through `else`/`catch`). -/
inductive LookupRes where
  | found (userId : String)
  | missing
  | failure
  deriving DecidableEq

/-- Oracle environment for the origin-message handler. `lookup` is
`users.lookupByEmail`; `dmTs u` is the `ts` of the `chat.postMessage` DM to
user `u` (`none` = the send threw; caught by the same `try/catch`,
`src/app.js:93-106`). -/
structure OriginEnv where
  lookup : String → LookupRes
  dmTs : String → Option String

/-- The origin message (`message` of the `slackApp.message` handler). An
absent `text` is modelled as `""` (both are falsy in the JS guard). -/
structure OriginMsg where
  text : String
  subtype : Option String
  channel : String
  ts : String

/-- `📩 You received a routed message from <#${message.channel}>:\n\n${message.text}`
(`src/app.js:98`). -/
def routedDmText (channel text : String) : String :=
  "📩 You received a routed message from <#" ++ channel ++ ">:\n\n" ++ text

/-- `✅ Routed message to: ...` (`src/app.js:111`). -/
def routedSayText (dms : List Dm) : String :=
  "✅ Routed message to: " ++
    String.intercalate ", " (dms.map (fun d => "<@" ++ d.userId ++ ">"))

/-- `⚠️ Not found in Slack: ...` (`src/app.js:114`, note the `new Set`). -/
def notFoundSayText (nf : List String) : String :=
  "⚠️ Not found in Slack: " ++ String.intercalate ", " (dedupKeepFirst nf)

/-- The per-email loop of the origin handler (`src/app.js:92-107`): look up
each email; on success DM the user and record `{userId, dmTs}`; on a missing
user, a lookup error, or a send error, push the email onto `notFound`.  The
`try/catch` wraps the whole body, so no per-email outcome aborts the loop.
Returns `(dmUsers, notFound, effects)`. -/
def dispatchLoop (env : OriginEnv) (dmBody : String) :
    List String → List Dm × List String × List Effect
  | [] => ([], [], [])
  | email :: rest =>
    match dispatchLoop env dmBody rest with
    | (dms, nf, effs) =>
      match env.lookup email with
      | .found uid =>
        match env.dmTs uid with
        | some ts =>
          (⟨uid, ts⟩ :: dms, nf,
           Effect.lookupUser email :: Effect.postDm uid dmBody :: effs)
        | none =>
          (dms, email :: nf,
           Effect.lookupUser email :: Effect.postDm uid dmBody :: effs)
      | .missing => (dms, email :: nf, Effect.lookupUser email :: effs)
      | .failure => (dms, email :: nf, Effect.lookupUser email :: effs)

/-- The `slackApp.message` handler (`src/app.js:83-116`): guard out empty
text, `bot_message` subtypes and messages with no extracted recipients; run
the per-email loop; persist the mapping and confirm only when at least one DM
was sent; report not-found recipients when there are any. -/
def originHandler (env : OriginEnv) (s : Store) (msg : OriginMsg) (now : Nat) :
    Store × List Effect :=
  if msg.text == "" || msg.subtype == some "bot_message" then (s, [])
  else if (extractRecipientEmails msg.text).isEmpty then (s, [])
  else
    match dispatchLoop env (routedDmText msg.channel msg.text)
        (extractRecipientEmails msg.text) with
    | (dmUsers, notFound, effs) =>
      (if dmUsers.isEmpty then s
       else saveMessageMapping s msg.ts msg.channel dmUsers notFound now,
       effs
        ++ (if dmUsers.isEmpty then []
            else [Effect.putMapping msg.ts msg.channel dmUsers notFound,
                  Effect.sayText (routedSayText dmUsers)])
        ++ (if notFound.isEmpty then []
            else [Effect.sayText (notFoundSayText notFound)]))

/-- The reply event (`event` of the `slackApp.event("message")` handler). -/
structure ReplyEvent where
  thread_ts : Option String
  subtype : Option String
  channel : String
  user : String
  text : String

/-- Oracle environment for the reply handler.
* `usersInfoName`: `users.info` + `real_name || name` (`src/app.js:141-142`,
  *not* in `try/catch`; `none` = the call threw and the handler aborts),
* `historyText`: text of `conversations.history().messages[0]`
  (`src/app.js:149-159`, in `try/catch`; `none` = threw or no message),
* `permalink`: `chat.getPermalink` (`src/app.js:164-173`, in `try/catch`),
* `notifyChannel`: `process.env.NOTIFY_CHANNEL_ID`,
* `notifyOk`: the audit `chat.postMessage` (`src/app.js:184-187`, *not* in
  `try/catch`),
* `dmSendOk u t`: the fan-out `chat.postMessage` into DM thread `t` of user
  `u` (`src/app.js:192-196,201-206`, *not* in `try/catch`),
* `originSendOk`: the threaded reply into the origin channel
  (`src/app.js:208-212`, *not* in `try/catch`; it is the handler's last
  statement, so its failure changes no subsequent behaviour). -/
structure ReplyEnv where
  usersInfoName : Option String
  historyText : Option String
  permalink : Option String
  notifyChannel : String
  notifyOk : Bool
  dmSendOk : String → String → Bool
  originSendOk : Bool

/-- `💬 *${fullName}*: ${event.text}` (`src/app.js:195,203,211`). -/
def mirrorText (fullName text : String) : String :=
  "💬 *" ++ fullName ++ "*: " ++ text

/-- The audit notification text (`src/app.js:178-181`). -/
def notifyBodyText (env : ReplyEnv) (fullName replyText : String) : String :=
  "📧 *Ticket: * " ++
    (match env.historyText with
     | some t => extractEmailSubject t
     | none => "N/A") ++ "\n" ++
  "💬 *" ++ fullName ++ " replied:* " ++ replyText ++ "\n" ++
  (match env.permalink with
   | some l => "🔗 <" ++ l ++ "|View full thread>"
   | none => "")

/-- The fan-out loop over `dms` (`src/app.js:191-197` without exclusion,
`199-207` with the `dm.dmTs !== dmThreadTs` exclusion; passing `excl = none`
makes the exclusion vacuous, matching the unconditional loop).  Each send is
un-caught: a failed send is still attempted (it appears in the trace) but
aborts the loop, so the `Bool` records whether the loop ran to completion. -/
def sendDmsLoop (env : ReplyEnv) (txt : String) (excl : Option String) :
    List Dm → List Effect × Bool
  | [] => ([], true)
  | dm :: rest =>
    if excl == some dm.dmTs then sendDmsLoop env txt excl rest
    else if env.dmSendOk dm.userId dm.dmTs then
      match sendDmsLoop env txt excl rest with
      | (effs, ok) => (Effect.sendDm dm.userId dm.dmTs txt :: effs, ok)
    else ([Effect.sendDm dm.userId dm.dmTs txt], false)

/-- The `CLASSIFIED → RELAYED` fan-out (`src/app.js:189-213`):
`isChannelReply = event.channel === mappingRow.channel_id`; a channel reply is
mirrored into every DM thread, a DM reply into every *other* DM thread and
then into the origin thread.  The origin-thread send happens only if the DM
loop completed (an earlier un-caught send failure aborts it). -/
def fanOut (env : ReplyEnv) (ev : ReplyEvent) (mappingRow : MappingRow)
    (channelThreadTs : String) (dmThreadTs : Option String)
    (fullName : String) : List Effect :=
  if ev.channel == mappingRow.channel_id then
    (sendDmsLoop env (mirrorText fullName ev.text) none mappingRow.dms).1
  else
    (sendDmsLoop env (mirrorText fullName ev.text) dmThreadTs mappingRow.dms).1 ++
      (if (sendDmsLoop env (mirrorText fullName ev.text) dmThreadTs mappingRow.dms).2 then
        [Effect.sendOrigin mappingRow.channel_id channelThreadTs
          (mirrorText fullName ev.text)]
       else [])

/-- Lines 137-213 of the reply handler, after a record was located:
re-fetch the row by `channelThreadTs`, fetch the replier's name (un-caught),
fetch history and permalink (caught), post the audit notification (un-caught)
and fan out. -/
def afterLocate (env : ReplyEnv) (s : Store) (ev : ReplyEvent)
    (channelThreadTs : String) (dmThreadTs : Option String) : List Effect :=
  match getMapping s channelThreadTs with
  | none => [Effect.lookupDirect channelThreadTs]
  | some mappingRow =>
    Effect.lookupDirect channelThreadTs :: Effect.usersInfo ev.user ::
    (match env.usersInfoName with
     | none => []
     | some fullName =>
       Effect.fetchHistory mappingRow.channel_id ::
       Effect.fetchPermalink mappingRow.channel_id ::
       Effect.notify env.notifyChannel (notifyBodyText env fullName ev.text) ::
       (if env.notifyOk then
          fanOut env ev mappingRow channelThreadTs dmThreadTs fullName
        else []))

/-- The `slackApp.event("message")` reply handler (`src/app.js:119-214`):
drop events with no `thread_ts` or with the `bot_message` subtype before any
lookup; locate the record by direct `getMapping` on the thread root, falling
back to `findMappingByDmThread` (which also yields the matched `dmThreadTs`
for echo exclusion); if neither resolves, stop; otherwise continue in
`afterLocate`. -/
def replyHandler (env : ReplyEnv) (s : Store) (ev : ReplyEvent) : List Effect :=
  match ev.thread_ts with
  | none => []
  | some threadTs =>
    if ev.subtype == some "bot_message" then []
    else
      match getMapping s threadTs with
      | some mapping =>
        Effect.lookupDirect threadTs ::
          afterLocate env s ev mapping.channel_ts none
      | none =>
        match findMappingByDmThread s threadTs with
        | some (found, dmt) =>
          Effect.lookupDirect threadTs :: Effect.lookupReverse threadTs ::
            afterLocate env s ev found.channel_ts (some dmt)
        | none => [Effect.lookupDirect threadTs, Effect.lookupReverse threadTs]

/-! ## Statement-side helpers -/

/-- Is this effect a fan-out send into a DM thread? -/
def isSendDmE : Effect → Bool
  | Effect.sendDm _ _ _ => true
  | _ => false

/-- Is this effect the threaded reply into the origin channel? -/
def isSendOriginE : Effect → Bool
  | Effect.sendOrigin _ _ _ => true
  | _ => false

/-- The DM fan-out sends of a trace, in order. -/
def dmSendsE (tr : List Effect) : List Effect := tr.filter isSendDmE

/-- The origin-thread sends of a trace, in order. -/
def originSendsE (tr : List Effect) : List Effect := tr.filter isSendOriginE

/-- The fan-out target list the classification dictates: one `sendDm` per
delivery, in stored order, excluding the delivery whose `dmTs` equals `excl`
(`excl = none` excludes nothing). -/
def fanOutTargets (row : MappingRow) (excl : Option String) (txt : String) :
    List Effect :=
  (row.dms.filter (fun dm => !(excl == some dm.dmTs))).map
    (fun dm => Effect.sendDm dm.userId dm.dmTs txt)

/-- Did this email end up as a delivery (user found *and* the DM send
succeeded)?  Mirrors the success path of `src/app.js:93-100`. -/
def delivered (env : OriginEnv) (e : String) : Bool :=
  match env.lookup e with
  | LookupRes.found uid => (env.dmTs uid).isSome
  | _ => false

/-- The `{userId, dmTs}` entry a delivered email produces (junk default on
non-delivered emails; only ever applied under `delivered`). -/
def dmOf (env : OriginEnv) (e : String) : Dm :=
  match env.lookup e with
  | LookupRes.found uid => ⟨uid, (env.dmTs uid).getD ""⟩
  | _ => ⟨"", ""⟩

/-- The derived-thread identifiers of a record. -/
def dmTsSet (r : MappingRow) : List String := r.dms.map (fun d => d.dmTs)

/-- No derived-thread identifier occurs in both records. -/
def DisjointDms (r1 r2 : MappingRow) : Prop :=
  ∀ t, t ∈ dmTsSet r1 → t ∉ dmTsSet r2

/-- The environmental freshness assumption of the spec (§3): Slack thread
timestamps returned by `chat.postMessage` are never shared between the DM
threads of different records ("different records may reuse a recipient's DM
channel but never the same thread timestamp"), nor within one dispatch. -/
def FreshEnv (env : OriginEnv) (s : Store) (msg : OriginMsg) : Prop :=
  ((dispatchLoop env (routedDmText msg.channel msg.text)
      (extractRecipientEmails msg.text)).1.map (fun d => d.dmTs)).Nodup ∧
  ∀ r ∈ s, r.channel_ts ≠ msg.ts →
    ∀ d ∈ (dispatchLoop env (routedDmText msg.channel msg.text)
        (extractRecipientEmails msg.text)).1, d.dmTs ∉ dmTsSet r

/-- Store invariant: primary keys are unique and the reverse index is
injective (no `dmTs` shared between two records). -/
def StoreInv (s : Store) : Prop :=
  (s.map (fun r => r.channel_ts)).Nodup ∧ s.Pairwise DisjointDms

/-- Stores reachable by the program: the empty table (`CREATE TABLE IF NOT
EXISTS`), grown by origin-message handler steps whose environment satisfies
the spec's thread-timestamp freshness.  The reply handler performs no store
writes (`src/app.js:119-214` contains no `INSERT`/`UPDATE`), so it
contributes no step. -/
inductive ReachableStore : Store → Prop where
  | empty : ReachableStore []
  | originStep (s : Store) (env : OriginEnv) (msg : OriginMsg) (now : Nat)
      (hs : ReachableStore s) (hfresh : FreshEnv env s msg) :
      ReachableStore (originHandler env s msg now).1

/-! ## Frame lemmas for the store (claim C5 machinery) -/

theorem updRow_channel_ts (k cid : String) (dms : List Dm) (nf : List String)
    (r : MappingRow) : (updRow k cid dms nf r).channel_ts = r.channel_ts := by
  unfold updRow
  by_cases h : r.channel_ts == k <;> simp [h]

theorem find?_map_updRow (s : Store) (k cid k' : String) (dms : List Dm)
    (nf : List String) :
    (s.map (updRow k cid dms nf)).find? (fun r => r.channel_ts == k') =
      (s.find? (fun r => r.channel_ts == k')).map (updRow k cid dms nf) := by
  induction s with
  | nil => rfl
  | cons r rest ih =>
    by_cases h : r.channel_ts = k'
    · simp [List.find?, updRow_channel_ts, h]
    · have hb : (r.channel_ts == k') = false := beq_eq_false_iff_ne.mpr h
      simp [List.find?, updRow_channel_ts, hb, ih]

/-- **C5.** A `put` (`saveMessageMapping`) whose `originKey` (`channel_ts`)
already exists in the store wholly replaces the stored `deliveries` (`dms`),
`unresolved` (`not_found`) and `originThread` (`channel_id`) with the new
values, leaves the stored `created_at` unchanged, and leaves every other key's
record untouched. -/
theorem saveMessageMapping_replaces_and_frames (s : Store) (k cid : String)
    (dms : List Dm) (nf : List String) (now : Nat) (r0 : MappingRow)
    (h : getMapping s k = some r0) :
    getMapping (saveMessageMapping s k cid dms nf now) k =
      some { channel_ts := k, channel_id := cid, dms := dms, not_found := nf,
             created_at := r0.created_at } ∧
    ∀ k', k' ≠ k →
      getMapping (saveMessageMapping s k cid dms nf now) k' = getMapping s k' := by
  have h' : s.find? (fun r => r.channel_ts == k) = some r0 := h
  have hmem : r0 ∈ s := List.mem_of_find?_eq_some h'
  have hpred := List.find?_some h'
  have hk : r0.channel_ts = k := by simpa using hpred
  have hany : s.any (fun r => r.channel_ts == k) = true := by
    rw [List.any_eq_true]
    exact ⟨r0, hmem, hpred⟩
  constructor
  · unfold saveMessageMapping
    rw [if_pos hany]
    unfold getMapping at h ⊢
    rw [find?_map_updRow, h]
    cases r0
    simp_all [updRow]
  · intro k' hk'
    unfold saveMessageMapping
    rw [if_pos hany]
    unfold getMapping
    rw [find?_map_updRow]
    cases hfind : s.find? (fun r => r.channel_ts == k') with
    | none => rfl
    | some r1 =>
      have h1 : r1.channel_ts = k' := by simpa using List.find?_some hfind
      have hb : (r1.channel_ts == k) = false :=
        beq_eq_false_iff_ne.mpr (by rw [h1]; exact hk')
      simp [updRow, hb]

/-! ## Extractor lemmas (claim C3 machinery) -/

theorem takeWhile_append_drop_length (p : α → Bool) (l : List α) :
    l.takeWhile p ++ l.drop (l.takeWhile p).length = l := by
  induction l with
  | nil => rfl
  | cons c cs ih =>
    by_cases hc : p c
    · simp only [List.takeWhile_cons, hc, if_true, List.length_cons,
        List.drop_succ_cons, List.cons_append, List.cons.injEq, true_and]
      exact ih
    · simp [List.takeWhile_cons, hc]

theorem all_of_mem_take_takeWhile (p : α → Bool) (l : List α) (d : Nat)
    (hd : d ≤ (l.takeWhile p).length) : (l.take d).all p := by
  rw [List.all_eq_true]
  intro x hx
  have h1 : l.take d = (l.takeWhile p).take d := by
    obtain ⟨t, ht⟩ := List.takeWhile_prefix p (l := l)
    conv_lhs => rw [← ht]
    rw [List.take_append_of_le_length hd]
  rw [h1] at hx
  exact List.mem_takeWhile_imp ((List.take_prefix d _).subset hx)

theorem domSplit_spec (s2 : List Char) (n d : Nat) (tld : List Char)
    (h : domSplit s2 n = some (d, tld)) :
    1 ≤ d ∧ d ≤ n ∧ s2[d]? = some '.' ∧
      tld = (s2.drop (d + 1)).takeWhile Char.isAlpha ∧ 2 ≤ tld.length := by
  induction n with
  | zero => simp [domSplit] at h
  | succ m ih =>
    rw [domSplit] at h
    by_cases hg : s2[m + 1]? == some '.'
    · rw [if_pos hg] at h
      by_cases hl : 2 ≤ ((s2.drop (m + 2)).takeWhile Char.isAlpha).length
      · rw [if_pos hl] at h
        simp only [Option.some.injEq, Prod.mk.injEq] at h
        obtain ⟨hd, htld⟩ := h
        subst hd
        refine ⟨by omega, le_refl _, eq_of_beq hg, htld.symm, ?_⟩
        rw [htld] at hl
        exact hl
      · rw [if_neg hl] at h
        obtain ⟨h1, h2, h3⟩ := ih h
        exact ⟨h1, by omega, h3⟩
    · rw [if_neg hg] at h
      obtain ⟨h1, h2, h3⟩ := ih h
      exact ⟨h1, by omega, h3⟩

theorem tryEmailAt_spec (s m : List Char) (h : tryEmailAt s = some m) :
    isEmailShaped m ∧ m <+: s := by
  unfold tryEmailAt at h
  split at h
  · exact absurd h (by simp)
  next hloc =>
    split at h
    next c s2 hdrop =>
      split at h
      next hat =>
        have hat' : c = '@' := eq_of_beq hat
        subst hat'
        split at h
        next d tld hsplit =>
          simp only [Option.some.injEq] at h
          obtain ⟨h1, h2, hdot, htld, hlen⟩ := domSplit_spec _ _ _ _ hsplit
          have hdlt : d < s2.length := by
            rcases List.getElem?_eq_some_iff.mp hdot with ⟨hlt, _⟩
            exact hlt
          constructor
          · refine ⟨s.takeWhile isLocalChar, s2.take d, tld, h.symm, ?_, ?_, ?_, ?_, ?_, hlen⟩
            · intro hemp; rw [hemp] at hloc; simp at hloc
            · rw [List.all_eq_true]
              exact fun x hx => List.mem_takeWhile_imp hx
            · have hlt : (s2.take d).length = d := List.length_take_of_le (le_of_lt hdlt)
              intro hemp
              rw [hemp] at hlt
              simp only [List.length_nil] at hlt
              omega
            · exact all_of_mem_take_takeWhile isDomainChar s2 d h2
            · rw [htld, List.all_eq_true]
              exact fun x hx => List.mem_takeWhile_imp hx
          · obtain ⟨t, ht⟩ := List.takeWhile_prefix Char.isAlpha (l := s2.drop (d + 1))
            refine ⟨t, ?_⟩
            have hs2 : s2 = s2.take d ++ '.' :: (s2.drop (d + 1)) := by
              conv_lhs => rw [← List.take_append_drop d s2]
              rw [List.drop_eq_getElem_cons hdlt]
              congr 2
              exact (List.getElem?_eq_some_iff.mp hdot).2
            calc m ++ t
                = s.takeWhile isLocalChar ++ '@' :: (s2.take d ++ '.' :: (tld ++ t)) := by
                  rw [← h]; simp [List.append_assoc]
              _ = s.takeWhile isLocalChar ++ '@' :: s2 := by
                  rw [← htld] at ht
                  rw [ht]
                  conv_rhs => rw [hs2]
              _ = s := by rw [← hdrop]; exact takeWhile_append_drop_length _ s
        next => exact absurd h (by simp)
      next => exact absurd h (by simp)
    next => exact absurd h (by simp)

theorem scanEmailsAux_sound (fuel : Nat) (s m : List Char)
    (h : m ∈ scanEmailsAux fuel s) : isEmailShaped m ∧ m <:+: s := by
  induction fuel generalizing s with
  | zero => simp [scanEmailsAux] at h
  | succ f ih =>
    cases s with
    | nil => simp [scanEmailsAux] at h
    | cons c cs =>
      rw [scanEmailsAux] at h
      cases htry : tryEmailAt (c :: cs) with
      | some m0 =>
        rw [htry] at h
        rcases List.mem_cons.mp h with heq | hrec
        · subst heq
          obtain ⟨hsh, hpre⟩ := tryEmailAt_spec _ _ htry
          exact ⟨hsh, hpre.isInfix⟩
        · obtain ⟨hsh, hinf⟩ := ih _ hrec
          exact ⟨hsh, hinf.trans (List.drop_suffix _ _).isInfix⟩
      | none =>
        rw [htry] at h
        obtain ⟨hsh, hinf⟩ := ih _ h
        exact ⟨hsh, hinf.trans (List.suffix_cons c cs).isInfix⟩

theorem mem_foldl_dedupStep (l : List String) :
    ∀ (acc : List String) (e : String),
      e ∈ l.foldl (fun acc e => if e ∈ acc then acc else acc ++ [e]) acc →
      e ∈ acc ∨ e ∈ l := by
  induction l with
  | nil => intro acc e h'; exact Or.inl h'
  | cons x xs ih =>
    intro acc e h'
    rw [List.foldl_cons] at h'
    rcases ih _ e h' with hacc | hxs
    · by_cases hx : x ∈ acc
      · rw [if_pos hx] at hacc; exact Or.inl hacc
      · rw [if_neg hx] at hacc
        rcases List.mem_append.mp hacc with h1 | h2
        · exact Or.inl h1
        · simp only [List.mem_singleton] at h2
          subst h2
          exact Or.inr (List.mem_cons_self ..)
    · exact Or.inr (List.mem_cons_of_mem x hxs)

theorem mem_of_mem_dedupKeepFirst (l : List String) (e : String)
    (h : e ∈ dedupKeepFirst l) : e ∈ l :=
  (mem_foldl_dedupStep l [] e h).resolve_left (by simp)

theorem nodup_foldl_dedupStep (l : List String) :
    ∀ acc : List String, acc.Nodup →
      (l.foldl (fun acc e => if e ∈ acc then acc else acc ++ [e]) acc).Nodup := by
  induction l with
  | nil => intro acc h; exact h
  | cons x xs ih =>
    intro acc hacc
    rw [List.foldl_cons]
    by_cases hx : x ∈ acc
    · rw [if_pos hx]; exact ih acc hacc
    · rw [if_neg hx]
      refine ih _ (List.Nodup.append hacc (List.nodup_singleton x) ?_)
      intro a ha hax
      simp only [List.mem_singleton] at hax
      subst hax
      exact hx ha

theorem nodup_dedupKeepFirst (l : List String) : (dedupKeepFirst l).Nodup :=
  nodup_foldl_dedupStep l [] List.nodup_nil

theorem findIdxCI_none_append (pat t s' : List Char)
    (h : findIdxCI pat (t ++ s') = none) : findIdxCI pat s' = none := by
  induction t with
  | nil => exact h
  | cons c cs ih =>
    rw [List.cons_append, findIdxCI] at h
    by_cases hm : matchesAtCI pat (c :: (cs ++ s'))
    · rw [if_pos hm] at h; exact absurd h (by simp)
    · rw [if_neg hm] at h
      rw [Option.map_eq_none'] at h
      exact ih h

theorem findIdxCI_none_of_suffix (pat s s' : List Char) (hsuf : s' <:+ s)
    (h : findIdxCI pat s = none) : findIdxCI pat s' = none := by
  obtain ⟨t, ht⟩ := hsuf
  exact findIdxCI_none_append pat t s' (ht ▸ h)

theorem recipientsBlock_none_of_no_start (s : List Char)
    (h : findIdxCI recipientsMarker s = none) : recipientsBlock s = none := by
  induction s with
  | nil => rfl
  | cons c cs ih =>
    rw [findIdxCI] at h
    by_cases hm : matchesAtCI recipientsMarker (c :: cs)
    · rw [if_pos hm] at h; exact absurd h (by simp)
    · rw [if_neg hm] at h
      rw [Option.map_eq_none'] at h
      rw [recipientsBlock, if_neg hm]
      exact ih h

theorem recipientsBlock_none_of_no_end (s : List Char)
    (h : findIdxCI subjectMarker s = none) : recipientsBlock s = none := by
  induction s with
  | nil => rfl
  | cons c cs ih =>
    have htail : findIdxCI subjectMarker cs = none := by
      rw [findIdxCI] at h
      by_cases hm : matchesAtCI subjectMarker (c :: cs)
      · rw [if_pos hm] at h; exact absurd h (by simp)
      · rw [if_neg hm] at h
        rw [Option.map_eq_none'] at h
        exact h
    rw [recipientsBlock]
    by_cases hm : matchesAtCI recipientsMarker (c :: cs)
    · rw [if_pos hm]
      have h2 : findIdxCI subjectMarker
          (((c :: cs).drop recipientsMarker.length).dropWhile jsWhitespace) = none :=
        findIdxCI_none_of_suffix _ _ _
          ((List.dropWhile_suffix jsWhitespace).trans (List.drop_suffix _ _)) h
      rw [h2]
      exact ih htail
    · rw [if_neg hm]
      exact ih htail

/-- **C3 (amended).** `extractRecipientEmails` returns only lower-cased,
deduplicated email-shaped identifiers found inside the block bounded by the
case-insensitive markers `Email Recipients` and `Email Subject`; if the start
marker (or the end marker) is absent anywhere in the text it returns the empty
set.  The scenario text `"Email Recipients\na@x.com, B@X.COM\nEmail Subject\n..."`
yields exactly `["a@x.com", "b@x.com"]`: the two addresses differ in their
local parts (`a` vs `B`), so lower-casing collapses nothing. -/
theorem extractRecipientEmails_sound :
    (∀ text : String,
      (findIdxCI recipientsMarker text.data = none →
        extractRecipientEmails text = []) ∧
      (findIdxCI subjectMarker text.data = none →
        extractRecipientEmails text = []) ∧
      (extractRecipientEmails text).Nodup ∧
      (∀ e ∈ extractRecipientEmails text, ∃ block m,
        recipientsBlock text.data = some block ∧ m <:+: block ∧
        isEmailShaped m ∧ e = String.mk (m.map Char.toLower))) ∧
    extractRecipientEmails "Email Recipients\na@x.com, B@X.COM\nEmail Subject\n..."
      = ["a@x.com", "b@x.com"] := by
  constructor
  · intro text
    refine ⟨?_, ?_, ?_, ?_⟩
    · intro h
      rw [extractRecipientEmails, recipientsBlock_none_of_no_start _ h]
    · intro h
      rw [extractRecipientEmails, recipientsBlock_none_of_no_end _ h]
    · rw [extractRecipientEmails]
      cases hb : recipientsBlock text.data with
      | none => exact List.nodup_nil
      | some block => exact nodup_dedupKeepFirst _
    · intro e he
      rw [extractRecipientEmails] at he
      cases hb : recipientsBlock text.data with
      | none => rw [hb] at he; simp at he
      | some block =>
        rw [hb] at he
        have he2 := mem_of_mem_dedupKeepFirst _ _ he
        obtain ⟨m, hm, rfl⟩ := List.mem_map.mp he2
        obtain ⟨hsh, hinf⟩ := scanEmailsAux_sound _ _ _ hm
        exact ⟨block, m, rfl, hinf, hsh, rfl⟩
  · decide

/-- Concrete witness for `extractRecipientEmails_sound`, discharging its
hypotheses: a marker-less text extracts nothing, and an extracted address is
the lower-casing of an email-shaped infix of the bounded block. -/
theorem extractRecipientEmails_sound_witness :
    extractRecipientEmails "no markers at all" = [] ∧
    (∃ block m,
      recipientsBlock ("Email Recipients c@d.org Email Subject x").data = some block ∧
      m <:+: block ∧ isEmailShaped m ∧ "c@d.org" = String.mk (m.map Char.toLower)) :=
  ⟨(extractRecipientEmails_sound.1 "no markers at all").1 (by decide),
   ((extractRecipientEmails_sound.1 "Email Recipients c@d.org Email Subject x").2.2.2
     "c@d.org" (by decide))⟩

/-- **C3 counterexample.** The claim asserts that
`"Email Recipients\na@x.com, B@X.COM\nEmail Subject\n..."` yields exactly
`{"a@x.com"}`; the code actually returns both `a@x.com` and `b@x.com`, since
the two addresses differ in their local parts and no case-insensitive
collapse applies. -/
theorem extractRecipientEmails_scenario_counterexample :
    extractRecipientEmails "Email Recipients\na@x.com, B@X.COM\nEmail Subject\n..."
        ≠ ["a@x.com"] ∧
    extractRecipientEmails "Email Recipients\na@x.com, B@X.COM\nEmail Subject\n..."
        = ["a@x.com", "b@x.com"] := by
  constructor
  · decide
  · decide

/-- Concrete witness for `saveMessageMapping_replaces_and_frames`. -/
theorem saveMessageMapping_replaces_and_frames_witness :
    getMapping (saveMessageMapping
        [{ channel_ts := "100.1", channel_id := "C1", dms := [⟨"U1", "200.1"⟩],
           not_found := [], created_at := 5 },
         { channel_ts := "300.1", channel_id := "C1", dms := [⟨"U2", "400.1"⟩],
           not_found := [], created_at := 7 }]
        "100.1" "C9" [⟨"U3", "500.1"⟩] ["z@y.com"] 99) "100.1" =
      some { channel_ts := "100.1", channel_id := "C9", dms := [⟨"U3", "500.1"⟩],
             not_found := ["z@y.com"], created_at := 5 } ∧
    ∀ k', k' ≠ "100.1" →
      getMapping (saveMessageMapping
        [{ channel_ts := "100.1", channel_id := "C1", dms := [⟨"U1", "200.1"⟩],
           not_found := [], created_at := 5 },
         { channel_ts := "300.1", channel_id := "C1", dms := [⟨"U2", "400.1"⟩],
           not_found := [], created_at := 7 }]
        "100.1" "C9" [⟨"U3", "500.1"⟩] ["z@y.com"] 99) k' =
      getMapping
        [{ channel_ts := "100.1", channel_id := "C1", dms := [⟨"U1", "200.1"⟩],
           not_found := [], created_at := 5 },
         { channel_ts := "300.1", channel_id := "C1", dms := [⟨"U2", "400.1"⟩],
           not_found := [], created_at := 7 }] k' :=
  saveMessageMapping_replaces_and_frames _ _ _ _ _ _
    { channel_ts := "100.1", channel_id := "C1", dms := [⟨"U1", "200.1"⟩],
      not_found := [], created_at := 5 } (by rfl)

/-! ## Reply-handler trace lemmas (claims C1, C2, C8, C9 machinery) -/

theorem sendDmsLoop_all_ok (env : ReplyEnv) (txt : String) (excl : Option String)
    (dms : List Dm) (hok : ∀ u t, env.dmSendOk u t = true) :
    sendDmsLoop env txt excl dms =
      ((dms.filter (fun dm => !(excl == some dm.dmTs))).map
        (fun dm => Effect.sendDm dm.userId dm.dmTs txt), true) := by
  induction dms with
  | nil => rfl
  | cons dm rest ih =>
    by_cases hskip : excl = some dm.dmTs
    · subst hskip
      simp [sendDmsLoop, ih, List.filter_cons]
    · have hb : (excl == some dm.dmTs) = false := beq_eq_false_iff_ne.mpr hskip
      simp [sendDmsLoop, hb, hok, ih, List.filter_cons]

theorem fanOut_all_ok (env : ReplyEnv) (ev : ReplyEvent) (row : MappingRow)
    (cts : String) (dmt : Option String) (name : String)
    (hok : ∀ u t, env.dmSendOk u t = true) :
    fanOut env ev row cts dmt name =
      if ev.channel == row.channel_id then
        fanOutTargets row none (mirrorText name ev.text)
      else
        fanOutTargets row dmt (mirrorText name ev.text) ++
          [Effect.sendOrigin row.channel_id cts (mirrorText name ev.text)] := by
  rw [fanOut]
  by_cases hch : ev.channel = row.channel_id
  · have hb : (ev.channel == row.channel_id) = true := beq_iff_eq.mpr hch
    rw [hb, if_pos rfl, if_pos rfl, sendDmsLoop_all_ok _ _ _ _ hok]
    rfl
  · have hb : (ev.channel == row.channel_id) = false := beq_eq_false_iff_ne.mpr hch
    simp only [hb, Bool.false_eq_true, if_false,
      sendDmsLoop_all_ok _ _ _ _ hok, fanOutTargets, if_pos trivial]

theorem afterLocate_eq (env : ReplyEnv) (s : Store) (ev : ReplyEvent)
    (cts : String) (dmt : Option String) (row : MappingRow) (name : String)
    (hrow : getMapping s cts = some row) (hname : env.usersInfoName = some name) :
    afterLocate env s ev cts dmt =
      Effect.lookupDirect cts :: Effect.usersInfo ev.user ::
      Effect.fetchHistory row.channel_id :: Effect.fetchPermalink row.channel_id ::
      Effect.notify env.notifyChannel (notifyBodyText env name ev.text) ::
      (if env.notifyOk then fanOut env ev row cts dmt name else []) := by
  simp only [afterLocate, hrow, hname]

theorem replyHandler_eq_direct (env : ReplyEnv) (s : Store) (ev : ReplyEvent)
    (t : String) (mapping : MappingRow)
    (hts : ev.thread_ts = some t) (hbot : ev.subtype ≠ some "bot_message")
    (hmap : getMapping s t = some mapping) :
    replyHandler env s ev =
      Effect.lookupDirect t :: afterLocate env s ev mapping.channel_ts none := by
  have hb : (ev.subtype == some "bot_message") = false := beq_eq_false_iff_ne.mpr hbot
  simp only [replyHandler, hts, hb, Bool.false_eq_true, if_false, hmap]

theorem replyHandler_eq_reverse (env : ReplyEnv) (s : Store) (ev : ReplyEvent)
    (t : String) (found : MappingRow) (d0 : String)
    (hts : ev.thread_ts = some t) (hbot : ev.subtype ≠ some "bot_message")
    (hmap : getMapping s t = none)
    (hfind : findMappingByDmThread s t = some (found, d0)) :
    replyHandler env s ev =
      Effect.lookupDirect t :: Effect.lookupReverse t ::
        afterLocate env s ev found.channel_ts (some d0) := by
  have hb : (ev.subtype == some "bot_message") = false := beq_eq_false_iff_ne.mpr hbot
  simp only [replyHandler, hts, hb, Bool.false_eq_true, if_false, hmap, hfind]

theorem replyHandler_eq_dropped (env : ReplyEnv) (s : Store) (ev : ReplyEvent)
    (t : String)
    (hts : ev.thread_ts = some t) (hbot : ev.subtype ≠ some "bot_message")
    (hmap : getMapping s t = none)
    (hfind : findMappingByDmThread s t = none) :
    replyHandler env s ev = [Effect.lookupDirect t, Effect.lookupReverse t] := by
  have hb : (ev.subtype == some "bot_message") = false := beq_eq_false_iff_ne.mpr hbot
  simp only [replyHandler, hts, hb, Bool.false_eq_true, if_false, hmap, hfind]

theorem dmSendsE_fanOutTargets (row : MappingRow) (excl : Option String)
    (txt : String) :
    dmSendsE (fanOutTargets row excl txt) = fanOutTargets row excl txt := by
  rw [dmSendsE, List.filter_eq_self]
  intro a ha
  obtain ⟨dm, _, rfl⟩ := List.mem_map.mp ha
  rfl

theorem originSendsE_fanOutTargets (row : MappingRow) (excl : Option String)
    (txt : String) : originSendsE (fanOutTargets row excl txt) = [] := by
  rw [originSendsE, List.filter_eq_nil_iff]
  intro a ha
  obtain ⟨dm, _, rfl⟩ := List.mem_map.mp ha
  simp [isSendOriginE]

theorem dmSendsE_cons_of_not (e : Effect) (tr : List Effect)
    (he : isSendDmE e = false) : dmSendsE (e :: tr) = dmSendsE tr := by
  simp [dmSendsE, List.filter_cons, he]

theorem originSendsE_cons_of_not (e : Effect) (tr : List Effect)
    (he : isSendOriginE e = false) : originSendsE (e :: tr) = originSendsE tr := by
  simp [originSendsE, List.filter_cons, he]

theorem dmSendsE_append (a b : List Effect) :
    dmSendsE (a ++ b) = dmSendsE a ++ dmSendsE b := by
  simp [dmSendsE]

theorem originSendsE_append (a b : List Effect) :
    originSendsE (a ++ b) = originSendsE a ++ originSendsE b := by
  simp [originSendsE]

/-- **C1.**  For every located reply event (all external sends succeeding),
the fan-out targets are exactly those the classification dictates: if the
reply's source conversation equals the record's `channel_id` (origin-side),
the reply text goes to every delivery with none excluded and nothing is sent
into the origin thread; otherwise (derivative-side) it goes to every delivery
except the one the reply came from — the `dmThreadTs` matched by the reverse
lookup, nothing when the record was located directly — plus one threaded
reply into the origin thread; in particular no send ever targets the DM
thread a derivative-side reply originated from. -/
theorem replyRelay_fanout_classification (env : ReplyEnv) (s : Store)
    (ev : ReplyEvent) (t name : String)
    (hts : ev.thread_ts = some t) (hbot : ev.subtype ≠ some "bot_message")
    (hname : env.usersInfoName = some name) (hnot : env.notifyOk = true)
    (hok : ∀ u t', env.dmSendOk u t' = true) :
    (∀ mapping row,
      getMapping s t = some mapping →
      getMapping s mapping.channel_ts = some row →
      ((ev.channel = row.channel_id →
          dmSendsE (replyHandler env s ev) =
            fanOutTargets row none (mirrorText name ev.text) ∧
          originSendsE (replyHandler env s ev) = []) ∧
       (ev.channel ≠ row.channel_id →
          dmSendsE (replyHandler env s ev) =
            fanOutTargets row none (mirrorText name ev.text) ∧
          originSendsE (replyHandler env s ev) =
            [Effect.sendOrigin row.channel_id mapping.channel_ts
              (mirrorText name ev.text)]))) ∧
    (∀ found d0 row,
      getMapping s t = none →
      findMappingByDmThread s t = some (found, d0) →
      getMapping s found.channel_ts = some row →
      ((ev.channel = row.channel_id →
          dmSendsE (replyHandler env s ev) =
            fanOutTargets row none (mirrorText name ev.text) ∧
          originSendsE (replyHandler env s ev) = []) ∧
       (ev.channel ≠ row.channel_id →
          dmSendsE (replyHandler env s ev) =
            fanOutTargets row (some d0) (mirrorText name ev.text) ∧
          originSendsE (replyHandler env s ev) =
            [Effect.sendOrigin row.channel_id found.channel_ts
              (mirrorText name ev.text)] ∧
          ∀ u txt', Effect.sendDm u d0 txt' ∉ replyHandler env s ev))) := by
  constructor
  · intro mapping row hmap hrow
    have htr := replyHandler_eq_direct env s ev t mapping hts hbot hmap
    rw [afterLocate_eq env s ev mapping.channel_ts none row name hrow hname, hnot,
      if_pos rfl, fanOut_all_ok env ev row mapping.channel_ts none name hok] at htr
    constructor
    · intro hch
      have hb : (ev.channel == row.channel_id) = true := beq_iff_eq.mpr hch
      rw [hb, if_pos rfl] at htr
      rw [htr]
      constructor
      · simp only [dmSendsE_cons_of_not, isSendDmE, dmSendsE_fanOutTargets]
      · simp only [originSendsE_cons_of_not, isSendOriginE, originSendsE_fanOutTargets]
    · intro hch
      have hb : (ev.channel == row.channel_id) = false := beq_eq_false_iff_ne.mpr hch
      rw [hb] at htr
      simp only [Bool.false_eq_true, if_false] at htr
      rw [htr]
      constructor
      · simp only [dmSendsE_cons_of_not, isSendDmE, dmSendsE_append,
          dmSendsE_fanOutTargets]
        simp [dmSendsE, List.filter_cons, isSendDmE]
      · simp only [originSendsE_cons_of_not, isSendOriginE, originSendsE_append,
          originSendsE_fanOutTargets]
        simp [originSendsE, List.filter_cons, isSendOriginE]
  · intro found d0 row hmap hfind hrow
    have htr := replyHandler_eq_reverse env s ev t found d0 hts hbot hmap hfind
    rw [afterLocate_eq env s ev found.channel_ts (some d0) row name hrow hname, hnot,
      if_pos rfl, fanOut_all_ok env ev row found.channel_ts (some d0) name hok] at htr
    constructor
    · intro hch
      have hb : (ev.channel == row.channel_id) = true := beq_iff_eq.mpr hch
      rw [hb, if_pos rfl] at htr
      rw [htr]
      constructor
      · simp only [dmSendsE_cons_of_not, isSendDmE, dmSendsE_fanOutTargets]
      · simp only [originSendsE_cons_of_not, isSendOriginE, originSendsE_fanOutTargets]
    · intro hch
      have hb : (ev.channel == row.channel_id) = false := beq_eq_false_iff_ne.mpr hch
      rw [hb] at htr
      simp only [Bool.false_eq_true, if_false] at htr
      have hdmEq : dmSendsE (replyHandler env s ev) =
          fanOutTargets row (some d0) (mirrorText name ev.text) := by
        rw [htr]
        simp only [dmSendsE_cons_of_not, isSendDmE, dmSendsE_append,
          dmSendsE_fanOutTargets]
        simp [dmSendsE, List.filter_cons, isSendDmE]
      refine ⟨hdmEq, ?_, ?_⟩
      · rw [htr]
        simp only [originSendsE_cons_of_not, isSendOriginE, originSendsE_append,
          originSendsE_fanOutTargets]
        simp [originSendsE, List.filter_cons, isSendOriginE]
      · intro u txt' hmem
        have hin : Effect.sendDm u d0 txt' ∈ dmSendsE (replyHandler env s ev) := by
          rw [dmSendsE]
          exact List.mem_filter.mpr ⟨hmem, rfl⟩
        rw [hdmEq, fanOutTargets] at hin
        obtain ⟨dm, hdm, heq⟩ := List.mem_map.mp hin
        obtain ⟨_, hts0, _⟩ := Effect.sendDm.inj heq
        have hkeep := (List.mem_filter.mp hdm).2
        rw [hts0] at hkeep
        simp at hkeep

/-- Concrete witness for `replyRelay_fanout_classification`: a derivative-side
reply located by the reverse lookup is relayed to the other delivery and into
the origin thread, never back into its own DM thread. -/
theorem replyRelay_fanout_classification_witness :
    dmSendsE (replyHandler
        ⟨some "Alice", none, none, "CN", true, fun _ _ => true, true⟩
        [⟨"100.1", "C1", [⟨"U1", "201.1"⟩, ⟨"U2", "202.1"⟩], [], 5⟩]
        ⟨some "201.1", none, "D1", "U1", "hi"⟩) =
      fanOutTargets ⟨"100.1", "C1", [⟨"U1", "201.1"⟩, ⟨"U2", "202.1"⟩], [], 5⟩
        (some "201.1") (mirrorText "Alice" "hi") ∧
    originSendsE (replyHandler
        ⟨some "Alice", none, none, "CN", true, fun _ _ => true, true⟩
        [⟨"100.1", "C1", [⟨"U1", "201.1"⟩, ⟨"U2", "202.1"⟩], [], 5⟩]
        ⟨some "201.1", none, "D1", "U1", "hi"⟩) =
      [Effect.sendOrigin "C1" "100.1" (mirrorText "Alice" "hi")] ∧
    ∀ u txt', Effect.sendDm u "201.1" txt' ∉ replyHandler
        ⟨some "Alice", none, none, "CN", true, fun _ _ => true, true⟩
        [⟨"100.1", "C1", [⟨"U1", "201.1"⟩, ⟨"U2", "202.1"⟩], [], 5⟩]
        ⟨some "201.1", none, "D1", "U1", "hi"⟩ :=
  ((replyRelay_fanout_classification
      ⟨some "Alice", none, none, "CN", true, fun _ _ => true, true⟩
      [⟨"100.1", "C1", [⟨"U1", "201.1"⟩, ⟨"U2", "202.1"⟩], [], 5⟩]
      ⟨some "201.1", none, "D1", "U1", "hi"⟩ "201.1" "Alice"
      rfl (by decide) rfl rfl (fun _ _ => rfl)).2
    ⟨"100.1", "C1", [⟨"U1", "201.1"⟩, ⟨"U2", "202.1"⟩], [], 5⟩ "201.1"
    ⟨"100.1", "C1", [⟨"U1", "201.1"⟩, ⟨"U2", "202.1"⟩], [], 5⟩
    (by decide) (by decide) (by decide)).2 (by decide)

theorem sendDmsLoop_fst_sendDm (env : ReplyEnv) (txt : String)
    (excl : Option String) (dms : List Dm) :
    ∀ e ∈ (sendDmsLoop env txt excl dms).1, isSendDmE e = true := by
  induction dms with
  | nil => intro e he; simp [sendDmsLoop] at he
  | cons dm rest ih =>
    intro e he
    rw [sendDmsLoop] at he
    by_cases hskip : (excl == some dm.dmTs) = true
    · rw [if_pos hskip] at he
      exact ih e he
    · rw [if_neg hskip] at he
      by_cases hok : env.dmSendOk dm.userId dm.dmTs = true
      · rw [if_pos hok] at he
        rcases List.mem_cons.mp he with rfl | he2
        · rfl
        · exact ih e he2
      · rw [if_neg hok] at he
        rcases List.mem_cons.mp he with rfl | he2
        · rfl
        · simp at he2

theorem sendDmsLoop_fst_prefix_of_targets (env : ReplyEnv) (txt : String)
    (excl : Option String) (dms : List Dm) :
    (sendDmsLoop env txt excl dms).1 <+:
      (dms.filter (fun dm => !(excl == some dm.dmTs))).map
        (fun dm => Effect.sendDm dm.userId dm.dmTs txt) := by
  induction dms with
  | nil => exact List.nil_prefix
  | cons dm rest ih =>
    rw [sendDmsLoop, List.filter_cons]
    by_cases hskip : (excl == some dm.dmTs) = true
    · rw [if_pos hskip]
      simp only [hskip, Bool.not_true, Bool.false_eq_true, if_false]
      exact ih
    · rw [if_neg hskip]
      have hkeep : (!(excl == some dm.dmTs)) = true := by
        simp [Bool.not_eq_true] at hskip ⊢
        exact hskip
      simp only [hkeep, if_pos rfl, List.map_cons]
      by_cases hok : env.dmSendOk dm.userId dm.dmTs = true
      · rw [if_pos hok]
        exact List.cons_prefix_cons.mpr ⟨rfl, ih⟩
      · rw [if_neg hok]
        exact List.cons_prefix_cons.mpr ⟨rfl, List.nil_prefix⟩

theorem dmSendsE_sendDmsLoop (env : ReplyEnv) (txt : String)
    (excl : Option String) (dms : List Dm) :
    dmSendsE (sendDmsLoop env txt excl dms).1 = (sendDmsLoop env txt excl dms).1 := by
  rw [dmSendsE, List.filter_eq_self]
  exact sendDmsLoop_fst_sendDm env txt excl dms

theorem dmSendsE_fanOut_prefix_of_targets (env : ReplyEnv) (ev : ReplyEvent)
    (row : MappingRow) (cts : String) (dmt : Option String) (name : String) :
    dmSendsE (fanOut env ev row cts dmt name) <+:
      (if ev.channel == row.channel_id then
        fanOutTargets row none (mirrorText name ev.text)
       else fanOutTargets row dmt (mirrorText name ev.text)) := by
  rw [fanOut]
  by_cases hch : (ev.channel == row.channel_id) = true
  · rw [if_pos hch, if_pos hch, dmSendsE_sendDmsLoop]
    exact sendDmsLoop_fst_prefix_of_targets env (mirrorText name ev.text) none row.dms
  · rw [if_neg hch, if_neg hch]
    rw [dmSendsE_append, dmSendsE_sendDmsLoop]
    have hpre := sendDmsLoop_fst_prefix_of_targets env (mirrorText name ev.text) dmt row.dms
    by_cases hok : (sendDmsLoop env (mirrorText name ev.text) dmt row.dms).2 = true
    · rw [if_pos hok]
      simpa [dmSendsE, List.filter_cons, isSendDmE, fanOutTargets] using hpre
    · rw [if_neg hok]
      simpa [dmSendsE, fanOutTargets] using hpre

theorem lookupReverse_not_mem_fanOut (env : ReplyEnv) (ev : ReplyEvent)
    (row : MappingRow) (cts : String) (dmt : Option String) (name : String)
    (x : String) : Effect.lookupReverse x ∉ fanOut env ev row cts dmt name := by
  intro hmem
  rw [fanOut] at hmem
  by_cases hch : (ev.channel == row.channel_id) = true
  · rw [if_pos hch] at hmem
    have := sendDmsLoop_fst_sendDm env (mirrorText name ev.text) none row.dms _ hmem
    simp [isSendDmE] at this
  · rw [if_neg hch] at hmem
    rcases List.mem_append.mp hmem with h | h
    · have := sendDmsLoop_fst_sendDm env (mirrorText name ev.text) dmt row.dms _ h
      simp [isSendDmE] at this
    · by_cases hok : (sendDmsLoop env (mirrorText name ev.text) dmt row.dms).2 = true
      · rw [if_pos hok] at h
        simp only [List.mem_singleton] at h
        exact Effect.noConfusion h
      · rw [if_neg hok] at h
        simp at h

theorem lookupReverse_not_mem_afterLocate (env : ReplyEnv) (s : Store)
    (ev : ReplyEvent) (cts : String) (dmt : Option String) (x : String) :
    Effect.lookupReverse x ∉ afterLocate env s ev cts dmt := by
  intro hmem
  rw [afterLocate] at hmem
  cases hrow : getMapping s cts with
  | none =>
    rw [hrow] at hmem
    simp only [List.mem_singleton] at hmem
    exact Effect.noConfusion hmem
  | some row =>
    rw [hrow] at hmem
    cases hname : env.usersInfoName with
    | none =>
      rw [hname] at hmem
      rcases List.mem_cons.mp hmem with h | h
      · exact Effect.noConfusion h
      rcases List.mem_cons.mp h with h2 | h2
      · exact Effect.noConfusion h2
      · simp at h2
    | some name =>
      rw [hname] at hmem
      rcases List.mem_cons.mp hmem with h | h
      · exact Effect.noConfusion h
      rcases List.mem_cons.mp h with h | h
      · exact Effect.noConfusion h
      rcases List.mem_cons.mp h with h | h
      · exact Effect.noConfusion h
      rcases List.mem_cons.mp h with h | h
      · exact Effect.noConfusion h
      rcases List.mem_cons.mp h with h | h
      · exact Effect.noConfusion h
      by_cases hnot : env.notifyOk = true
      · rw [if_pos hnot] at h
        exact lookupReverse_not_mem_fanOut env ev row cts dmt name x h
      · rw [if_neg hnot] at h
        simp at h

theorem replyHandler_no_thread (env : ReplyEnv) (s : Store) (ev : ReplyEvent)
    (hts : ev.thread_ts = none) : replyHandler env s ev = [] := by
  simp [replyHandler, hts]

theorem replyHandler_bot (env : ReplyEnv) (s : Store) (ev : ReplyEvent)
    (hbot : ev.subtype = some "bot_message") : replyHandler env s ev = [] := by
  cases hts : ev.thread_ts with
  | none => simp [replyHandler, hts]
  | some t => simp [replyHandler, hts, hbot]

theorem originHandler_bot (env : OriginEnv) (s : Store) (msg : OriginMsg)
    (now : Nat) (hbot : msg.subtype = some "bot_message") :
    originHandler env s msg now = (s, []) := by
  simp [originHandler, hbot]

theorem fanOutTargets_nodup (row : MappingRow) (excl : Option String)
    (txt : String) (h : row.dms.Nodup) : (fanOutTargets row excl txt).Nodup := by
  apply List.Nodup.map
  · intro a b hab
    obtain ⟨h1, h2, _⟩ := Effect.sendDm.inj hab
    cases a
    cases b
    dsimp at h1 h2
    rw [h1, h2]
  · exact h.filter _

theorem dmSendsE_afterLocate_cases (env : ReplyEnv) (s : Store)
    (ev : ReplyEvent) (cts : String) (dmt : Option String) :
    dmSendsE (afterLocate env s ev cts dmt) = [] ∨
    ∃ row name, getMapping s cts = some row ∧
      dmSendsE (afterLocate env s ev cts dmt) <+:
        (if ev.channel == row.channel_id then
          fanOutTargets row none (mirrorText name ev.text)
         else fanOutTargets row dmt (mirrorText name ev.text)) := by
  cases hrow : getMapping s cts with
  | none =>
    left
    simp [afterLocate, hrow, dmSendsE, isSendDmE, List.filter_cons]
  | some row =>
    cases hname : env.usersInfoName with
    | none =>
      left
      simp [afterLocate, hrow, hname, dmSendsE, isSendDmE, List.filter_cons]
    | some name =>
      rw [afterLocate_eq env s ev cts dmt row name hrow hname]
      by_cases hnot : env.notifyOk = true
      · right
        refine ⟨row, name, rfl, ?_⟩
        rw [if_pos hnot]
        have hd : dmSendsE (Effect.lookupDirect cts :: Effect.usersInfo ev.user ::
            Effect.fetchHistory row.channel_id :: Effect.fetchPermalink row.channel_id ::
            Effect.notify env.notifyChannel (notifyBodyText env name ev.text) ::
            fanOut env ev row cts dmt name) =
            dmSendsE (fanOut env ev row cts dmt name) := by
          simp only [dmSendsE_cons_of_not, isSendDmE]
        rw [hd]
        exact dmSendsE_fanOut_prefix_of_targets env ev row cts dmt name
      · left
        rw [if_neg hnot]
        rfl

theorem dmSendsE_replyHandler_cases (env : ReplyEnv) (s : Store)
    (ev : ReplyEvent) :
    dmSendsE (replyHandler env s ev) = [] ∨
    ∃ cts dmt row name, getMapping s cts = some row ∧
      dmSendsE (replyHandler env s ev) <+:
        (if ev.channel == row.channel_id then
          fanOutTargets row none (mirrorText name ev.text)
         else fanOutTargets row dmt (mirrorText name ev.text)) := by
  cases hts : ev.thread_ts with
  | none => left; rw [replyHandler_no_thread env s ev hts]; rfl
  | some t =>
    by_cases hbot : ev.subtype = some "bot_message"
    · left; rw [replyHandler_bot env s ev hbot]; rfl
    · cases hmap : getMapping s t with
      | some mapping =>
        rw [replyHandler_eq_direct env s ev t mapping hts hbot hmap]
        have hd : dmSendsE (Effect.lookupDirect t ::
            afterLocate env s ev mapping.channel_ts none) =
            dmSendsE (afterLocate env s ev mapping.channel_ts none) := by
          simp only [dmSendsE_cons_of_not, isSendDmE]
        rw [hd]
        rcases dmSendsE_afterLocate_cases env s ev mapping.channel_ts none with
          h | ⟨row, name, hrow, hpre⟩
        · left; exact h
        · right; exact ⟨mapping.channel_ts, none, row, name, hrow, hpre⟩
      | none =>
        cases hfind : findMappingByDmThread s t with
        | some p =>
          obtain ⟨found, d0⟩ := p
          rw [replyHandler_eq_reverse env s ev t found d0 hts hbot hmap hfind]
          have hd : dmSendsE (Effect.lookupDirect t :: Effect.lookupReverse t ::
              afterLocate env s ev found.channel_ts (some d0)) =
              dmSendsE (afterLocate env s ev found.channel_ts (some d0)) := by
            simp only [dmSendsE_cons_of_not, isSendDmE]
          rw [hd]
          rcases dmSendsE_afterLocate_cases env s ev found.channel_ts (some d0) with
            h | ⟨row, name, hrow, hpre⟩
          · left; exact h
          · right; exact ⟨found.channel_ts, some d0, row, name, hrow, hpre⟩
        | none =>
          left
          rw [replyHandler_eq_dropped env s ev t hts hbot hmap hfind]
          rfl

/-- **C2.** For every inbound reply event with a thread root: the relay tries
the direct store lookup first, and when it hits, the reverse lookup
`findMappingByDmThread` is never consulted (no `lookupReverse` call appears in
the trace); when both lookups miss, the event is dropped after exactly the two
lookups, with no sends of any kind; and the reply is fanned out at most once —
whenever the store's records have duplicate-free deliveries, no DM target is
sent to twice. -/
theorem replyRelay_lookup_order (env : ReplyEnv) (s : Store) (ev : ReplyEvent)
    (t : String)
    (hts : ev.thread_ts = some t) (hbot : ev.subtype ≠ some "bot_message") :
    (∀ mapping, getMapping s t = some mapping →
      ∀ x, Effect.lookupReverse x ∉ replyHandler env s ev) ∧
    (getMapping s t = none → findMappingByDmThread s t = none →
      replyHandler env s ev = [Effect.lookupDirect t, Effect.lookupReverse t] ∧
      dmSendsE (replyHandler env s ev) = [] ∧
      originSendsE (replyHandler env s ev) = []) ∧
    ((∀ r ∈ s, r.dms.Nodup) → (dmSendsE (replyHandler env s ev)).Nodup) := by
  refine ⟨?_, ?_, ?_⟩
  · intro mapping hmap x hmem
    rw [replyHandler_eq_direct env s ev t mapping hts hbot hmap] at hmem
    rcases List.mem_cons.mp hmem with h | h
    · exact Effect.noConfusion h
    · exact lookupReverse_not_mem_afterLocate env s ev mapping.channel_ts none x h
  · intro hmap hfind
    have htr := replyHandler_eq_dropped env s ev t hts hbot hmap hfind
    exact ⟨htr, by rw [htr]; rfl, by rw [htr]; rfl⟩
  · intro hstore
    rcases dmSendsE_replyHandler_cases env s ev with h | ⟨cts, dmt, row, name, hrow, hpre⟩
    · rw [h]; exact List.nodup_nil
    · have hmem : row ∈ s := List.mem_of_find?_eq_some hrow
      have hnd := hstore row hmem
      apply List.Nodup.sublist hpre.sublist
      by_cases hch : (ev.channel == row.channel_id) = true
      · rw [if_pos hch]; exact fanOutTargets_nodup row none _ hnd
      · rw [if_neg hch]; exact fanOutTargets_nodup row dmt _ hnd

/-- Concrete witness for `replyRelay_lookup_order`. -/
theorem replyRelay_lookup_order_witness :
    (∀ x, Effect.lookupReverse x ∉ replyHandler
        ⟨some "Alice", none, none, "CN", true, fun _ _ => true, true⟩
        [⟨"100.1", "C1", [⟨"U1", "201.1"⟩], [], 5⟩]
        ⟨some "100.1", none, "C1", "U1", "hi"⟩) ∧
    (dmSendsE (replyHandler
        ⟨some "Alice", none, none, "CN", true, fun _ _ => true, true⟩
        [⟨"100.1", "C1", [⟨"U1", "201.1"⟩], [], 5⟩]
        ⟨some "100.1", none, "C1", "U1", "hi"⟩)).Nodup := by
  have h := replyRelay_lookup_order
    ⟨some "Alice", none, none, "CN", true, fun _ _ => true, true⟩
    [⟨"100.1", "C1", [⟨"U1", "201.1"⟩], [], 5⟩]
    ⟨some "100.1", none, "C1", "U1", "hi"⟩ "100.1" rfl (by decide)
  exact ⟨h.1 ⟨"100.1", "C1", [⟨"U1", "201.1"⟩], [], 5⟩ rfl, h.2.2 (by decide)⟩

/-- **C7.** Every event tagged `bot_message` is short-circuited to a no-op
before any store lookup or send, by both handlers (the reply relay's trace is
empty and the origin handler leaves the store untouched with an empty trace);
reply events with no thread context are dropped the same way. -/
theorem botMessage_shortcircuit :
    (∀ env s ev, ev.subtype = some "bot_message" → replyHandler env s ev = []) ∧
    (∀ env s msg now, msg.subtype = some "bot_message" →
      originHandler env s msg now = (s, [])) ∧
    (∀ env s ev, ev.thread_ts = none → replyHandler env s ev = []) :=
  ⟨fun env s ev hbot => replyHandler_bot env s ev hbot,
   fun env s msg now hbot => originHandler_bot env s msg now hbot,
   fun env s ev hts => replyHandler_no_thread env s ev hts⟩

/-- Concrete witness for `botMessage_shortcircuit`: a bot-tagged reply in a
thread with a matching record still produces no effect at all, a bot-tagged
origin message with a valid recipient block writes nothing, and a threadless
reply is dropped. -/
theorem botMessage_shortcircuit_witness :
    replyHandler ⟨some "Alice", none, none, "CN", true, fun _ _ => true, true⟩
      [⟨"100.1", "C1", [⟨"U1", "201.1"⟩], [], 5⟩]
      ⟨some "100.1", some "bot_message", "C1", "U1", "hi"⟩ = [] ∧
    originHandler ⟨fun _ => LookupRes.found "U1", fun _ => some "201.1"⟩
      [] ⟨"Email Recipients\na@x.com\nEmail Subject\ns\nEmail Content\nc",
          some "bot_message", "C1", "100.1"⟩ 7 = ([], []) ∧
    replyHandler ⟨some "Alice", none, none, "CN", true, fun _ _ => true, true⟩
      [⟨"100.1", "C1", [⟨"U1", "201.1"⟩], [], 5⟩]
      ⟨none, none, "C1", "U1", "hi"⟩ = [] :=
  ⟨botMessage_shortcircuit.1 _ _ _ rfl,
   botMessage_shortcircuit.2.1 _ _ _ 7 rfl,
   botMessage_shortcircuit.2.2 _ _ _ rfl⟩

theorem dmSendsE_replyHandler_direct (env : ReplyEnv) (s : Store)
    (ev : ReplyEvent) (t : String) (mapping row : MappingRow) (name : String)
    (hts : ev.thread_ts = some t) (hbot : ev.subtype ≠ some "bot_message")
    (hmap : getMapping s t = some mapping)
    (hrow : getMapping s mapping.channel_ts = some row)
    (hname : env.usersInfoName = some name) (hnot : env.notifyOk = true) :
    dmSendsE (replyHandler env s ev) =
      dmSendsE (fanOut env ev row mapping.channel_ts none name) := by
  rw [replyHandler_eq_direct env s ev t mapping hts hbot hmap,
    afterLocate_eq env s ev mapping.channel_ts none row name hrow hname, hnot,
    if_pos rfl]
  simp only [dmSendsE_cons_of_not, isSendDmE]

theorem dmSendsE_replyHandler_reverse (env : ReplyEnv) (s : Store)
    (ev : ReplyEvent) (t : String) (found row : MappingRow) (d0 name : String)
    (hts : ev.thread_ts = some t) (hbot : ev.subtype ≠ some "bot_message")
    (hmap : getMapping s t = none)
    (hfind : findMappingByDmThread s t = some (found, d0))
    (hrow : getMapping s found.channel_ts = some row)
    (hname : env.usersInfoName = some name) (hnot : env.notifyOk = true) :
    dmSendsE (replyHandler env s ev) =
      dmSendsE (fanOut env ev row found.channel_ts (some d0) name) := by
  rw [replyHandler_eq_reverse env s ev t found d0 hts hbot hmap hfind,
    afterLocate_eq env s ev found.channel_ts (some d0) row name hrow hname, hnot,
    if_pos rfl]
  simp only [dmSendsE_cons_of_not, isSendDmE]

theorem dmSendsE_fanOut_all_ok (env : ReplyEnv) (ev : ReplyEvent)
    (row : MappingRow) (cts : String) (dmt : Option String) (name : String)
    (hok : ∀ u t', env.dmSendOk u t' = true) :
    dmSendsE (fanOut env ev row cts dmt name) =
      if ev.channel == row.channel_id then
        fanOutTargets row none (mirrorText name ev.text)
      else fanOutTargets row dmt (mirrorText name ev.text) := by
  rw [fanOut_all_ok env ev row cts dmt name hok]
  by_cases hch : (ev.channel == row.channel_id) = true
  · rw [if_pos hch, if_pos hch, dmSendsE_fanOutTargets]
  · rw [if_neg hch, if_neg hch, dmSendsE_append, dmSendsE_fanOutTargets]
    simp [dmSendsE, List.filter_cons, isSendDmE]

/-- **C8 (amended).** A permalink failure never blocks the fan-out: with
`chat.getPermalink` failing (and the notification send succeeding) every
target in the record's deliveries is still attempted, and the audit
notification itself is still posted (with no link).  But the notification
send is *not* an optional side effect: it is awaited outside any `try/catch`
before the fan-out loops (`src/app.js:184-187`), so its failure aborts the
handler with no fan-out target attempted (the attempted notification is still
the last call in the trace). -/
theorem permalink_failure_does_not_block_fanout (env : ReplyEnv) (s : Store)
    (ev : ReplyEvent) (t : String) (mapping row : MappingRow) (name : String)
    (hts : ev.thread_ts = some t) (hbot : ev.subtype ≠ some "bot_message")
    (hmap : getMapping s t = some mapping)
    (hrow : getMapping s mapping.channel_ts = some row)
    (hname : env.usersInfoName = some name) :
    (env.permalink = none → env.notifyOk = true →
      (∀ u t', env.dmSendOk u t' = true) →
      dmSendsE (replyHandler env s ev) =
        if ev.channel == row.channel_id then
          fanOutTargets row none (mirrorText name ev.text)
        else fanOutTargets row none (mirrorText name ev.text)) ∧
    (env.notifyOk = false →
      dmSendsE (replyHandler env s ev) = [] ∧
      Effect.notify env.notifyChannel (notifyBodyText env name ev.text) ∈
        replyHandler env s ev) := by
  constructor
  · intro _ hnot hok
    rw [dmSendsE_replyHandler_direct env s ev t mapping row name
      hts hbot hmap hrow hname hnot]
    exact dmSendsE_fanOut_all_ok env ev row mapping.channel_ts none name hok
  · intro hnotf
    have htr := replyHandler_eq_direct env s ev t mapping hts hbot hmap
    rw [afterLocate_eq env s ev mapping.channel_ts none row name hrow hname,
      hnotf] at htr
    simp only [Bool.false_eq_true, if_false] at htr
    constructor
    · rw [htr]; rfl
    · rw [htr]
      simp

/-- Concrete witness for `permalink_failure_does_not_block_fanout`: with the
permalink oracle failing, both deliveries are still attempted; with the
notification send failing, none is, though the notification was attempted. -/
theorem permalink_failure_does_not_block_fanout_witness :
    (dmSendsE (replyHandler
        ⟨some "Alice", none, none, "CN", true, fun _ _ => true, true⟩
        [⟨"100.1", "C1", [⟨"U1", "201.1"⟩, ⟨"U2", "202.1"⟩], [], 5⟩]
        ⟨some "100.1", none, "C1", "U1", "hi"⟩) =
      if ("C1" : String) == "C1" then
        fanOutTargets ⟨"100.1", "C1", [⟨"U1", "201.1"⟩, ⟨"U2", "202.1"⟩], [], 5⟩
          none (mirrorText "Alice" "hi")
      else fanOutTargets ⟨"100.1", "C1", [⟨"U1", "201.1"⟩, ⟨"U2", "202.1"⟩], [], 5⟩
          none (mirrorText "Alice" "hi")) ∧
    (dmSendsE (replyHandler
        ⟨some "Alice", none, none, "CN", false, fun _ _ => true, true⟩
        [⟨"100.1", "C1", [⟨"U1", "201.1"⟩, ⟨"U2", "202.1"⟩], [], 5⟩]
        ⟨some "100.1", none, "C1", "U1", "hi"⟩) = [] ∧
      Effect.notify "CN" (notifyBodyText
          ⟨some "Alice", none, none, "CN", false, fun _ _ => true, true⟩
          "Alice" "hi") ∈
        replyHandler ⟨some "Alice", none, none, "CN", false, fun _ _ => true, true⟩
          [⟨"100.1", "C1", [⟨"U1", "201.1"⟩, ⟨"U2", "202.1"⟩], [], 5⟩]
          ⟨some "100.1", none, "C1", "U1", "hi"⟩) :=
  ⟨(permalink_failure_does_not_block_fanout
      ⟨some "Alice", none, none, "CN", true, fun _ _ => true, true⟩
      [⟨"100.1", "C1", [⟨"U1", "201.1"⟩, ⟨"U2", "202.1"⟩], [], 5⟩]
      ⟨some "100.1", none, "C1", "U1", "hi"⟩ "100.1"
      ⟨"100.1", "C1", [⟨"U1", "201.1"⟩, ⟨"U2", "202.1"⟩], [], 5⟩
      ⟨"100.1", "C1", [⟨"U1", "201.1"⟩, ⟨"U2", "202.1"⟩], [], 5⟩ "Alice"
      rfl (by decide) rfl rfl rfl).1 rfl rfl (fun _ _ => rfl),
   (permalink_failure_does_not_block_fanout
      ⟨some "Alice", none, none, "CN", false, fun _ _ => true, true⟩
      [⟨"100.1", "C1", [⟨"U1", "201.1"⟩, ⟨"U2", "202.1"⟩], [], 5⟩]
      ⟨some "100.1", none, "C1", "U1", "hi"⟩ "100.1"
      ⟨"100.1", "C1", [⟨"U1", "201.1"⟩, ⟨"U2", "202.1"⟩], [], 5⟩
      ⟨"100.1", "C1", [⟨"U1", "201.1"⟩, ⟨"U2", "202.1"⟩], [], 5⟩ "Alice"
      rfl (by decide) rfl rfl rfl).2 rfl⟩

/-- **C8 counterexample.** The claim says any failure of the notification
send still lets every fan-out target be attempted.  With the audit
`chat.postMessage` failing (`notifyOk = false`) on a record with one
delivery, no fan-out send is attempted at all: the un-caught rejection aborts
the handler before the mirror loops. -/
theorem notification_failure_blocks_fanout_counterexample :
    dmSendsE (replyHandler
        ⟨some "Alice", none, none, "CN", false, fun _ _ => true, true⟩
        [⟨"100.1", "C1", [⟨"U1", "201.1"⟩], [], 5⟩]
        ⟨some "100.1", none, "C1", "U1", "hi"⟩) = [] ∧
    (⟨"100.1", "C1", [⟨"U1", "201.1"⟩], [], 5⟩ : MappingRow).dms ≠ [] := by
  constructor
  · decide
  · decide

/-- **C9 (amended).** For every reply event that reaches fan-out: when every
send succeeds, every target in the record's deliveries is attempted (the DM
sends equal the classified target list); when a send fails, the fan-out stops
at the failing target — the attempted DM sends form a prefix of the
classified target list and the remaining targets are not attempted.  No
failure record is produced anywhere: the handler has no return value, so a
partial fan-out is silently swallowed (`src/app.js:192,201` are awaited
outside any `try/catch`). -/
theorem replyRelay_fanout_attempts (env : ReplyEnv) (s : Store) (ev : ReplyEvent)
    (t name : String)
    (hts : ev.thread_ts = some t) (hbot : ev.subtype ≠ some "bot_message")
    (hname : env.usersInfoName = some name) (hnot : env.notifyOk = true) :
    (∀ mapping row,
      getMapping s t = some mapping →
      getMapping s mapping.channel_ts = some row →
      dmSendsE (replyHandler env s ev) <+:
        fanOutTargets row none (mirrorText name ev.text) ∧
      ((∀ u t', env.dmSendOk u t' = true) →
        dmSendsE (replyHandler env s ev) =
          fanOutTargets row none (mirrorText name ev.text))) ∧
    (∀ found d0 row,
      getMapping s t = none →
      findMappingByDmThread s t = some (found, d0) →
      getMapping s found.channel_ts = some row →
      dmSendsE (replyHandler env s ev) <+:
        (if ev.channel == row.channel_id then
          fanOutTargets row none (mirrorText name ev.text)
         else fanOutTargets row (some d0) (mirrorText name ev.text)) ∧
      ((∀ u t', env.dmSendOk u t' = true) →
        dmSendsE (replyHandler env s ev) =
          (if ev.channel == row.channel_id then
            fanOutTargets row none (mirrorText name ev.text)
           else fanOutTargets row (some d0) (mirrorText name ev.text)))) := by
  constructor
  · intro mapping row hmap hrow
    rw [dmSendsE_replyHandler_direct env s ev t mapping row name
      hts hbot hmap hrow hname hnot]
    constructor
    · have h := dmSendsE_fanOut_prefix_of_targets env ev row mapping.channel_ts none name
      by_cases hch : (ev.channel == row.channel_id) = true
      · rwa [if_pos hch] at h
      · rwa [if_neg hch] at h
    · intro hok
      rw [dmSendsE_fanOut_all_ok env ev row mapping.channel_ts none name hok]
      by_cases hch : (ev.channel == row.channel_id) = true
      · rw [if_pos hch]
      · rw [if_neg hch]
  · intro found d0 row hmap hfind hrow
    rw [dmSendsE_replyHandler_reverse env s ev t found row d0 name
      hts hbot hmap hfind hrow hname hnot]
    exact ⟨dmSendsE_fanOut_prefix_of_targets env ev row found.channel_ts (some d0) name,
      fun hok => dmSendsE_fanOut_all_ok env ev row found.channel_ts (some d0) name hok⟩

/-- Concrete witness for `replyRelay_fanout_attempts`: with the second DM send
destined to fail, the attempted sends are still a prefix of the classified
target list. -/
theorem replyRelay_fanout_attempts_witness :
    dmSendsE (replyHandler
        ⟨some "Alice", none, none, "CN", true, fun u _ => u == "U1", true⟩
        [⟨"100.1", "C1", [⟨"U1", "201.1"⟩, ⟨"U2", "202.1"⟩], [], 5⟩]
        ⟨some "100.1", none, "C1", "U1", "hi"⟩) <+:
      fanOutTargets ⟨"100.1", "C1", [⟨"U1", "201.1"⟩, ⟨"U2", "202.1"⟩], [], 5⟩
        none (mirrorText "Alice" "hi") :=
  ((replyRelay_fanout_attempts
      ⟨some "Alice", none, none, "CN", true, fun u _ => u == "U1", true⟩
      [⟨"100.1", "C1", [⟨"U1", "201.1"⟩, ⟨"U2", "202.1"⟩], [], 5⟩]
      ⟨some "100.1", none, "C1", "U1", "hi"⟩ "100.1" "Alice"
      rfl (by decide) rfl rfl).1
    ⟨"100.1", "C1", [⟨"U1", "201.1"⟩, ⟨"U2", "202.1"⟩], [], 5⟩
    ⟨"100.1", "C1", [⟨"U1", "201.1"⟩, ⟨"U2", "202.1"⟩], [], 5⟩ rfl rfl).1

/-- **C9 counterexample.** The claim says a send failure to one target never
silently skips the remaining targets (they are attempted, or the failures are
reported in a returned outcome).  With the send to the first delivery
failing, the second delivery — present in the record — is never attempted,
and the handler returns nothing that could report it. -/
theorem fanout_send_failure_skips_rest_counterexample :
    Effect.sendDm "U1" "201.1" (mirrorText "Alice" "hi") ∈ replyHandler
        ⟨some "Alice", none, none, "CN", true, fun _ _ => false, true⟩
        [⟨"100.1", "C1", [⟨"U1", "201.1"⟩, ⟨"U2", "202.1"⟩], [], 5⟩]
        ⟨some "100.1", none, "C1", "U1", "hi"⟩ ∧
    Effect.sendDm "U2" "202.1" (mirrorText "Alice" "hi") ∉ replyHandler
        ⟨some "Alice", none, none, "CN", true, fun _ _ => false, true⟩
        [⟨"100.1", "C1", [⟨"U1", "201.1"⟩, ⟨"U2", "202.1"⟩], [], 5⟩]
        ⟨some "100.1", none, "C1", "U1", "hi"⟩ ∧
    (⟨"U2", "202.1"⟩ : Dm) ∈
      (⟨"100.1", "C1", [⟨"U1", "201.1"⟩, ⟨"U2", "202.1"⟩], [], 5⟩ : MappingRow).dms := by
  refine ⟨?_, ?_, ?_⟩
  · decide
  · decide
  · decide

/-! ## Origin-handler lemmas (claims C6, C4, C10) -/

/-- **C6.** The per-email dispatch loop assigns each recipient to exactly one
of the two groups: `dmUsers` is the image of the delivered recipients (user
found and DM sent), `notFound` is exactly the rest (missing user, lookup
failure, or send failure), their union is a permutation of the input set with
no recipient in both, and a per-recipient failure never aborts the rest of
the loop (each non-delivered email lands in `notFound` while the remaining
emails are still processed). -/
theorem dispatchLoop_partition (env : OriginEnv) (body : String)
    (emails : List String) :
    (dispatchLoop env body emails).1 =
      (emails.filter (delivered env)).map (dmOf env) ∧
    (dispatchLoop env body emails).2.1 =
      emails.filter (fun e => !(delivered env e)) ∧
    (emails.filter (delivered env) ++
      (dispatchLoop env body emails).2.1).Perm emails ∧
    ∀ e, ¬(e ∈ emails.filter (delivered env) ∧
           e ∈ (dispatchLoop env body emails).2.1) := by
  have hmain : (dispatchLoop env body emails).1 =
      (emails.filter (delivered env)).map (dmOf env) ∧
      (dispatchLoop env body emails).2.1 =
      emails.filter (fun e => !(delivered env e)) := by
    induction emails with
    | nil => exact ⟨rfl, rfl⟩
    | cons email rest ih =>
      obtain ⟨ih1, ih2⟩ := ih
      cases hlk : env.lookup email with
      | found uid =>
        cases hdm : env.dmTs uid with
        | some ts =>
          have hdel : delivered env email = true := by
            simp [delivered, hlk, hdm]
          have hof : dmOf env email = ⟨uid, ts⟩ := by
            simp [dmOf, hlk, hdm]
          constructor
          · simp [dispatchLoop, hlk, hdm, List.filter_cons, hdel, hof, ih1]
          · simp [dispatchLoop, hlk, hdm, List.filter_cons, hdel, ih2]
        | none =>
          have hdel : delivered env email = false := by
            simp [delivered, hlk, hdm]
          constructor
          · simp [dispatchLoop, hlk, hdm, List.filter_cons, hdel, ih1]
          · simp [dispatchLoop, hlk, hdm, List.filter_cons, hdel, ih2]
      | missing =>
        have hdel : delivered env email = false := by simp [delivered, hlk]
        constructor
        · simp [dispatchLoop, hlk, List.filter_cons, hdel, ih1]
        · simp [dispatchLoop, hlk, List.filter_cons, hdel, ih2]
      | failure =>
        have hdel : delivered env email = false := by simp [delivered, hlk]
        constructor
        · simp [dispatchLoop, hlk, List.filter_cons, hdel, ih1]
        · simp [dispatchLoop, hlk, List.filter_cons, hdel, ih2]
  obtain ⟨h1, h2⟩ := hmain
  refine ⟨h1, h2, ?_, ?_⟩
  · rw [h2]
    exact List.filter_append_perm (delivered env) emails
  · intro e ⟨hin, hnf⟩
    rw [h2] at hnf
    have hd := List.of_mem_filter hin
    have hnd := List.of_mem_filter hnf
    rw [hd] at hnd
    simp at hnd

/-- Concrete witness for `dispatchLoop_partition`: one delivered recipient,
one missing, one whose DM send fails. -/
theorem dispatchLoop_partition_witness :
    (dispatchLoop
        ⟨fun e => if e == "a@x.com" then LookupRes.found "U1"
                  else if e == "b@x.com" then LookupRes.found "U2"
                  else LookupRes.missing,
         fun u => if u == "U1" then some "201.1" else none⟩
        "body" ["a@x.com", "b@x.com", "c@x.com"]).1 =
      (["a@x.com", "b@x.com", "c@x.com"].filter (delivered
        ⟨fun e => if e == "a@x.com" then LookupRes.found "U1"
                  else if e == "b@x.com" then LookupRes.found "U2"
                  else LookupRes.missing,
         fun u => if u == "U1" then some "201.1" else none⟩)).map (dmOf
        ⟨fun e => if e == "a@x.com" then LookupRes.found "U1"
                  else if e == "b@x.com" then LookupRes.found "U2"
                  else LookupRes.missing,
         fun u => if u == "U1" then some "201.1" else none⟩) ∧
    (dispatchLoop
        ⟨fun e => if e == "a@x.com" then LookupRes.found "U1"
                  else if e == "b@x.com" then LookupRes.found "U2"
                  else LookupRes.missing,
         fun u => if u == "U1" then some "201.1" else none⟩
        "body" ["a@x.com", "b@x.com", "c@x.com"]).2.1 =
      ["a@x.com", "b@x.com", "c@x.com"].filter (fun e => !(delivered
        ⟨fun e => if e == "a@x.com" then LookupRes.found "U1"
                  else if e == "b@x.com" then LookupRes.found "U2"
                  else LookupRes.missing,
         fun u => if u == "U1" then some "201.1" else none⟩ e)) :=
  ⟨(dispatchLoop_partition _ "body" ["a@x.com", "b@x.com", "c@x.com"]).1,
   (dispatchLoop_partition _ "body" ["a@x.com", "b@x.com", "c@x.com"]).2.1⟩

theorem dispatchLoop_effects_shape (env : OriginEnv) (body : String)
    (emails : List String) :
    ∀ e ∈ (dispatchLoop env body emails).2.2,
      (∃ em, e = Effect.lookupUser em) ∨ ∃ u b, e = Effect.postDm u b := by
  induction emails with
  | nil => intro e he; simp [dispatchLoop] at he
  | cons email rest ih =>
    intro e he
    cases hlk : env.lookup email with
    | found uid =>
      cases hdm : env.dmTs uid with
      | some ts =>
        simp only [dispatchLoop, hlk, hdm] at he
        rcases List.mem_cons.mp he with rfl | he2
        · exact Or.inl ⟨email, rfl⟩
        rcases List.mem_cons.mp he2 with rfl | he3
        · exact Or.inr ⟨uid, body, rfl⟩
        · exact ih e he3
      | none =>
        simp only [dispatchLoop, hlk, hdm] at he
        rcases List.mem_cons.mp he with rfl | he2
        · exact Or.inl ⟨email, rfl⟩
        rcases List.mem_cons.mp he2 with rfl | he3
        · exact Or.inr ⟨uid, body, rfl⟩
        · exact ih e he3
    | missing =>
      simp only [dispatchLoop, hlk] at he
      rcases List.mem_cons.mp he with rfl | he2
      · exact Or.inl ⟨email, rfl⟩
      · exact ih e he2
    | failure =>
      simp only [dispatchLoop, hlk] at he
      rcases List.mem_cons.mp he with rfl | he2
      · exact Or.inl ⟨email, rfl⟩
      · exact ih e he2

theorem saveMessageMapping_preserves_nonempty (s : Store) (k cid : String)
    (d : List Dm) (nf : List String) (now : Nat)
    (hs : ∀ r ∈ s, r.dms ≠ []) (hd : d ≠ []) :
    ∀ r ∈ saveMessageMapping s k cid d nf now, r.dms ≠ [] := by
  intro r hr
  rw [saveMessageMapping] at hr
  by_cases hany : (s.any fun r => r.channel_ts == k) = true
  · rw [if_pos hany] at hr
    obtain ⟨r0, hr0, rfl⟩ := List.mem_map.mp hr
    rw [updRow]
    by_cases hk : (r0.channel_ts == k) = true
    · rw [if_pos hk]
      exact hd
    · rw [if_neg hk]
      exact hs r0 hr0
  · rw [if_neg hany] at hr
    rcases List.mem_append.mp hr with h | h
    · exact hs r h
    · simp only [List.mem_singleton] at h
      subst h
      exact hd

theorem originHandler_eq (env : OriginEnv) (s : Store) (msg : OriginMsg)
    (now : Nat) (dmUsers : List Dm) (notFound : List String)
    (effs : List Effect)
    (h1 : msg.text ≠ "") (h2 : msg.subtype ≠ some "bot_message")
    (h3 : extractRecipientEmails msg.text ≠ [])
    (hloop : dispatchLoop env (routedDmText msg.channel msg.text)
      (extractRecipientEmails msg.text) = (dmUsers, notFound, effs)) :
    originHandler env s msg now =
      (if dmUsers.isEmpty then s
       else saveMessageMapping s msg.ts msg.channel dmUsers notFound now,
       effs
        ++ (if dmUsers.isEmpty then []
            else [Effect.putMapping msg.ts msg.channel dmUsers notFound,
                  Effect.sayText (routedSayText dmUsers)])
        ++ (if notFound.isEmpty then []
            else [Effect.sayText (notFoundSayText notFound)])) := by
  have ha : (msg.text == "") = false := beq_eq_false_iff_ne.mpr h1
  have hb : (msg.subtype == some "bot_message") = false := beq_eq_false_iff_ne.mpr h2
  have hg2 : (extractRecipientEmails msg.text).isEmpty = false := by
    cases hx : extractRecipientEmails msg.text with
    | nil => exact absurd hx h3
    | cons a l => rfl
  simp only [originHandler, ha, hb, Bool.or_false, Bool.false_eq_true, if_false,
    hg2, hloop]

/-- **C4.** A routing record is persisted (`saveMessageMapping` runs, a
`putMapping` appears in the trace) exactly when the dispatch loop's
`dmUsers` is non-empty; when every recipient is unresolved the store is left
untouched and the only `say` posted is the single not-found notification —
hence every record an origin-handler step leaves in the store has non-empty
deliveries. -/
theorem originHandler_put_iff (env : OriginEnv) (s : Store) (msg : OriginMsg)
    (now : Nat) (dmUsers : List Dm) (notFound : List String)
    (effs : List Effect)
    (hloop : dispatchLoop env (routedDmText msg.channel msg.text)
      (extractRecipientEmails msg.text) = (dmUsers, notFound, effs)) :
    (∀ k cid d nf, Effect.putMapping k cid d nf ∈ (originHandler env s msg now).2 →
      k = msg.ts ∧ cid = msg.channel ∧ d = dmUsers ∧ nf = notFound ∧ d ≠ []) ∧
    (msg.text ≠ "" → msg.subtype ≠ some "bot_message" →
     extractRecipientEmails msg.text ≠ [] → dmUsers ≠ [] →
      Effect.putMapping msg.ts msg.channel dmUsers notFound ∈
        (originHandler env s msg now).2 ∧
      (originHandler env s msg now).1 =
        saveMessageMapping s msg.ts msg.channel dmUsers notFound now) ∧
    (dmUsers = [] →
      (originHandler env s msg now).1 = s ∧
      (∀ k cid d nf, Effect.putMapping k cid d nf ∉ (originHandler env s msg now).2) ∧
      (∀ txt, Effect.sayText txt ∈ (originHandler env s msg now).2 →
        txt = notFoundSayText notFound)) ∧
    ((∀ r ∈ s, r.dms ≠ []) → ∀ r ∈ (originHandler env s msg now).1, r.dms ≠ []) := by
  by_cases hguard : (msg.text == "" || msg.subtype == some "bot_message") = true
  · have hoh : originHandler env s msg now = (s, []) := by
      simp [originHandler, hguard]
    rw [hoh]
    refine ⟨?_, ?_, ?_, ?_⟩
    · intro k cid d nf hmem
      simp at hmem
    · intro ht hb _ _
      exfalso
      rcases Bool.or_eq_true_iff.mp hguard with h | h
      · exact ht (by simpa using h)
      · exact hb (by simpa using h)
    · intro _
      exact ⟨rfl, fun k cid d nf hmem => by simp at hmem,
             fun txt hmem => by simp at hmem⟩
    · intro hs
      exact hs
  · by_cases hext : (extractRecipientEmails msg.text).isEmpty = true
    · have hoh : originHandler env s msg now = (s, []) := by
        simp [originHandler, hext]
      rw [hoh]
      refine ⟨?_, ?_, ?_, ?_⟩
      · intro k cid d nf hmem
        simp at hmem
      · intro _ _ h3 _
        exact absurd (List.isEmpty_iff.mp hext) h3
      · intro _
        exact ⟨rfl, fun k cid d nf hmem => by simp at hmem,
               fun txt hmem => by simp at hmem⟩
      · intro hs
        exact hs
    · have h1 : msg.text ≠ "" := by
        intro h
        exact hguard (by simp [h])
      have h2 : msg.subtype ≠ some "bot_message" := by
        intro h
        exact hguard (by simp [h])
      have h3 : extractRecipientEmails msg.text ≠ [] := by
        intro h
        exact hext (by simp [h])
      have hoh := originHandler_eq env s msg now dmUsers notFound effs h1 h2 h3 hloop
      have hshape : ∀ e ∈ effs,
          (∃ em, e = Effect.lookupUser em) ∨ ∃ u b, e = Effect.postDm u b := by
        have h := dispatchLoop_effects_shape env (routedDmText msg.channel msg.text)
          (extractRecipientEmails msg.text)
        rw [hloop] at h
        exact h
      rw [hoh]
      refine ⟨?_, ?_, ?_, ?_⟩
      · intro k cid d nf hmem
        simp only [List.mem_append] at hmem
        rcases hmem with (hmem | hmem) | hmem
        · rcases hshape _ hmem with ⟨em, h⟩ | ⟨u, b, h⟩
          · exact Effect.noConfusion h
          · exact Effect.noConfusion h
        · by_cases hde : dmUsers.isEmpty = true
          · rw [if_pos hde] at hmem
            simp at hmem
          · rw [if_neg hde] at hmem
            rcases List.mem_cons.mp hmem with h | h
            · obtain ⟨hk, hcid, hd, hnf⟩ := Effect.putMapping.inj h
              exact ⟨hk, hcid, hd, hnf, by
                subst hd
                intro hnil
                rw [hnil] at hde
                exact hde rfl⟩
            · simp only [List.mem_singleton] at h
              exact Effect.noConfusion h
        · by_cases hne : notFound.isEmpty = true
          · rw [if_pos hne] at hmem
            simp at hmem
          · rw [if_neg hne] at hmem
            simp only [List.mem_singleton] at hmem
            exact Effect.noConfusion hmem
      · intro _ _ _ hdm
        have hde : dmUsers.isEmpty = false := by
          cases hx : dmUsers with
          | nil => exact absurd hx hdm
          | cons a l => rfl
        rw [hde]
        constructor
        · simp
        · simp
      · intro hdm
        subst hdm
        refine ⟨by simp, ?_, ?_⟩
        · intro k cid d nf hmem
          simp only [List.isEmpty_nil, if_true, List.append_nil,
            List.nil_append, List.mem_append] at hmem
          rcases hmem with hmem | hmem
          · rcases hshape _ hmem with ⟨em, h⟩ | ⟨u, b, h⟩
            · exact Effect.noConfusion h
            · exact Effect.noConfusion h
          · by_cases hne : notFound.isEmpty = true
            · rw [if_pos hne] at hmem
              simp at hmem
            · rw [if_neg hne] at hmem
              simp only [List.mem_singleton] at hmem
              exact Effect.noConfusion hmem
        · intro txt hmem
          simp only [List.isEmpty_nil, if_true, List.append_nil,
            List.nil_append, List.mem_append] at hmem
          rcases hmem with hmem | hmem
          · rcases hshape _ hmem with ⟨em, h⟩ | ⟨u, b, h⟩
            · exact Effect.noConfusion h
            · exact Effect.noConfusion h
          · by_cases hne : notFound.isEmpty = true
            · rw [if_pos hne] at hmem
              simp at hmem
            · rw [if_neg hne] at hmem
              simp only [List.mem_singleton] at hmem
              exact Effect.sayText.inj hmem
      · intro hs
        by_cases hde : dmUsers.isEmpty = true
        · rw [if_pos hde]
          exact hs
        · rw [if_neg hde]
          refine saveMessageMapping_preserves_nonempty s msg.ts msg.channel
            dmUsers notFound now hs ?_
          intro hnil
          rw [hnil] at hde
          exact hde rfl

/-- Concrete witness for `originHandler_put_iff`: one resolved and one
unresolved recipient — the record is persisted with the single delivery; and
the projection facts hold at that input. -/
theorem originHandler_put_iff_witness :
    Effect.putMapping "100.1" "C1" [⟨"U1", "201.1"⟩] ["b@x.com"] ∈
      (originHandler
        ⟨fun e => if e == "a@x.com" then LookupRes.found "U1" else LookupRes.missing,
         fun _ => some "201.1"⟩
        []
        ⟨"Email Recipients\na@x.com, b@x.com\nEmail Subject\ns", none, "C1", "100.1"⟩
        7).2 ∧
    (originHandler
        ⟨fun e => if e == "a@x.com" then LookupRes.found "U1" else LookupRes.missing,
         fun _ => some "201.1"⟩
        []
        ⟨"Email Recipients\na@x.com, b@x.com\nEmail Subject\ns", none, "C1", "100.1"⟩
        7).1 =
      saveMessageMapping [] "100.1" "C1" [⟨"U1", "201.1"⟩] ["b@x.com"] 7 :=
  (originHandler_put_iff
    ⟨fun e => if e == "a@x.com" then LookupRes.found "U1" else LookupRes.missing,
     fun _ => some "201.1"⟩
    []
    ⟨"Email Recipients\na@x.com, b@x.com\nEmail Subject\ns", none, "C1", "100.1"⟩
    7 [⟨"U1", "201.1"⟩] ["b@x.com"]
    [Effect.lookupUser "a@x.com",
     Effect.postDm "U1" (routedDmText "C1"
       "Email Recipients\na@x.com, b@x.com\nEmail Subject\ns"),
     Effect.lookupUser "b@x.com"]
    (by decide)).2.1 (by decide) (by decide) (by decide) (by decide)

theorem disjointDms_symm : Symmetric DisjointDms := by
  intro a b hab t htb hta
  exact hab t hta htb

theorem dmTsSet_updRow_hit (k cid : String) (d : List Dm) (nf : List String)
    (r : MappingRow) (hrk : r.channel_ts = k) :
    dmTsSet (updRow k cid d nf r) = d.map (fun x => x.dmTs) := by
  rw [updRow, if_pos (beq_iff_eq.mpr hrk)]
  rfl

theorem updRow_miss (k cid : String) (d : List Dm) (nf : List String)
    (r : MappingRow) (hrk : r.channel_ts ≠ k) :
    updRow k cid d nf r = r := by
  rw [updRow, if_neg]
  rw [Bool.not_eq_true]
  exact beq_eq_false_iff_ne.mpr hrk

theorem pairwise_map_updRow (k cid : String) (d : List Dm) (nf : List String)
    (s : Store)
    (hkeys : (s.map (fun r => r.channel_ts)).Nodup)
    (hpair : s.Pairwise DisjointDms)
    (hfresh : ∀ r ∈ s, r.channel_ts ≠ k → ∀ x ∈ d, x.dmTs ∉ dmTsSet r) :
    (s.map (updRow k cid d nf)).Pairwise DisjointDms := by
  induction s with
  | nil => exact List.Pairwise.nil
  | cons r rest ih =>
    simp only [List.map_cons, List.nodup_cons] at hkeys
    obtain ⟨hknot, hkrest⟩ := hkeys
    obtain hpair' := List.pairwise_cons.mp hpair
    rw [List.map_cons]
    refine List.pairwise_cons.mpr ⟨?_, ?_⟩
    · intro b hb
      obtain ⟨r2, hr2, rfl⟩ := List.mem_map.mp hb
      by_cases hrk : r.channel_ts = k
      · have hr2k : r2.channel_ts ≠ k := by
          intro h2k
          exact hknot (by
            rw [hrk, ← h2k]
            exact List.mem_map_of_mem _ hr2)
        rw [updRow_miss k cid d nf r2 hr2k]
        intro t ht htb
        rw [dmTsSet_updRow_hit k cid d nf r hrk] at ht
        obtain ⟨x, hx, rfl⟩ := List.mem_map.mp ht
        exact hfresh r2 (List.mem_cons_of_mem r hr2) hr2k x hx htb
      · rw [updRow_miss k cid d nf r hrk]
        by_cases hr2k : r2.channel_ts = k
        · intro t ht htb
          rw [dmTsSet_updRow_hit k cid d nf r2 hr2k] at htb
          obtain ⟨x, hx, hxt⟩ := List.mem_map.mp htb
          rw [← hxt] at ht
          exact hfresh r (List.mem_cons_self ..) hrk x hx ht
        · rw [updRow_miss k cid d nf r2 hr2k]
          exact hpair'.1 r2 hr2
    · exact ih hkrest hpair'.2 (fun r' hr' => hfresh r' (List.mem_cons_of_mem r hr'))

theorem saveMessageMapping_preserves_inv (s : Store) (k cid : String)
    (d : List Dm) (nf : List String) (now : Nat)
    (hinv : StoreInv s)
    (hfresh : ∀ r ∈ s, r.channel_ts ≠ k → ∀ x ∈ d, x.dmTs ∉ dmTsSet r) :
    StoreInv (saveMessageMapping s k cid d nf now) := by
  obtain ⟨hkeys, hpair⟩ := hinv
  rw [saveMessageMapping]
  by_cases hany : (s.any fun r => r.channel_ts == k) = true
  · rw [if_pos hany]
    constructor
    · have hmk : (s.map (updRow k cid d nf)).map (fun r => r.channel_ts) =
          s.map (fun r => r.channel_ts) := by
        rw [List.map_map]
        exact List.map_congr_left (fun a _ => updRow_channel_ts k cid d nf a)
      rw [hmk]
      exact hkeys
    · exact pairwise_map_updRow k cid d nf s hkeys hpair hfresh
  · rw [if_neg hany]
    have hknotin : ∀ r ∈ s, r.channel_ts ≠ k := by
      intro r hr hk
      apply hany
      rw [List.any_eq_true]
      exact ⟨r, hr, beq_iff_eq.mpr hk⟩
    constructor
    · rw [List.map_append]
      apply List.Nodup.append hkeys (by simp)
      intro a ha hb
      simp only [List.map_cons, List.map_nil, List.mem_singleton] at hb
      subst hb
      obtain ⟨r, hr, hrk⟩ := List.mem_map.mp ha
      exact hknotin r hr hrk
    · rw [List.pairwise_append]
      refine ⟨hpair, by simp, ?_⟩
      intro a ha b hb
      simp only [List.mem_singleton] at hb
      subst hb
      intro t hta htb
      have hset : dmTsSet (⟨k, cid, d, nf, now⟩ : MappingRow) =
          d.map (fun x => x.dmTs) := rfl
      rw [hset] at htb
      obtain ⟨x, hx, rfl⟩ := List.mem_map.mp htb
      exact hfresh a ha (hknotin a ha) x hx hta

theorem findMapping_unique (s : Store) (t : String) (r1 : MappingRow)
    (huniq : ∀ r2 ∈ s, t ∈ dmTsSet r2 → r2 = r1)
    (hr1 : r1 ∈ s) (ht : t ∈ dmTsSet r1) :
    findMappingByDmThread s t = some (r1, t) := by
  induction s with
  | nil => cases hr1
  | cons row rest ih =>
    rw [findMappingByDmThread]
    cases hf : row.dms.find? (fun d => d.dmTs == t) with
    | some found =>
      have hfound : found.dmTs = t := by simpa using List.find?_some hf
      have hrow : t ∈ dmTsSet row := by
        rw [← hfound]
        exact List.mem_map_of_mem _ (List.mem_of_find?_eq_some hf)
      have heq : row = r1 := huniq row (List.mem_cons_self ..) hrow
      rw [heq]
      show some (r1, found.dmTs) = some (r1, t)
      rw [hfound]
    | none =>
      have hnrow : t ∉ dmTsSet row := by
        intro hmem
        obtain ⟨dd, hd, hdt⟩ := List.mem_map.mp hmem
        exact List.find?_eq_none.mp hf dd hd (by simp [hdt])
      have hr1' : r1 ∈ rest := by
        rcases List.mem_cons.mp hr1 with rfl | hh
        · exact absurd ht hnrow
        · exact hh
      exact ih (fun r2 h2 ht2 => huniq r2 (List.mem_cons_of_mem _ h2) ht2) hr1'

theorem originHandler_store_cases (env : OriginEnv) (s : Store)
    (msg : OriginMsg) (now : Nat) :
    (originHandler env s msg now).1 = s ∨
    (originHandler env s msg now).1 =
      saveMessageMapping s msg.ts msg.channel
        (dispatchLoop env (routedDmText msg.channel msg.text)
          (extractRecipientEmails msg.text)).1
        (dispatchLoop env (routedDmText msg.channel msg.text)
          (extractRecipientEmails msg.text)).2.1 now := by
  by_cases hguard : (msg.text == "" || msg.subtype == some "bot_message") = true
  · left
    simp [originHandler, hguard]
  · by_cases hext : (extractRecipientEmails msg.text).isEmpty = true
    · left
      simp [originHandler, hext]
    · have h1 : msg.text ≠ "" := by
        intro h; exact hguard (by simp [h])
      have h2 : msg.subtype ≠ some "bot_message" := by
        intro h; exact hguard (by simp [h])
      have h3 : extractRecipientEmails msg.text ≠ [] := by
        intro h; exact hext (by simp [h])
      cases hp : dispatchLoop env (routedDmText msg.channel msg.text)
          (extractRecipientEmails msg.text) with
      | mk dmUsers rest =>
        rw [originHandler_eq env s msg now dmUsers rest.1 rest.2 h1 h2 h3 hp]
        by_cases hde : dmUsers.isEmpty = true
        · left
          simp [hde]
        · right
          simp [hde]

/-- **C10.** In every reachable store state (stores grown from empty by
origin-handler steps whose transport satisfies the spec's thread-timestamp
freshness, §3), the reverse index is injective: the primary keys are unique,
no `dmTs` appears in the deliveries of two distinct records, and
`findMappingByDmThread` identifies exactly the one record containing a given
derived-thread identifier. -/
theorem reverse_index_injective (s : Store) (h : ReachableStore s) :
    StoreInv s ∧
    (∀ t r1 r2, r1 ∈ s → r2 ∈ s → t ∈ dmTsSet r1 → t ∈ dmTsSet r2 → r1 = r2) ∧
    (∀ t r1, r1 ∈ s → t ∈ dmTsSet r1 →
      findMappingByDmThread s t = some (r1, t)) := by
  have hinv : StoreInv s := by
    induction h with
    | empty => exact ⟨List.nodup_nil, List.Pairwise.nil⟩
    | originStep s0 env msg now hs hfresh ih =>
      rcases originHandler_store_cases env s0 msg now with hcase | hcase
      · rw [hcase]; exact ih
      · rw [hcase]
        exact saveMessageMapping_preserves_inv s0 msg.ts msg.channel _ _ now ih hfresh.2
  have huniq : ∀ t r1 r2, r1 ∈ s → r2 ∈ s →
      t ∈ dmTsSet r1 → t ∈ dmTsSet r2 → r1 = r2 := by
    intro t r1 r2 h1 h2 ht1 ht2
    by_contra hne
    exact List.Pairwise.forall disjointDms_symm hinv.2 h1 h2 hne t ht1 ht2
  refine ⟨hinv, huniq, ?_⟩
  intro t r1 hr1 ht1
  exact findMapping_unique s t r1
    (fun r2 h2 ht2 => huniq t r2 r1 h2 hr1 ht2 ht1) hr1 ht1

/-- Concrete witness for `reverse_index_injective`: the store reached by one
origin-handler step from the empty table, on which the reverse lookup finds
exactly the record of the delivery. -/
theorem reverse_index_injective_witness :
    findMappingByDmThread
      (originHandler
        ⟨fun e => if e == "a@x.com" then LookupRes.found "U1" else LookupRes.missing,
         fun _ => some "201.1"⟩
        []
        ⟨"Email Recipients\na@x.com\nEmail Subject\ns", none, "C1", "100.1"⟩ 7).1
      "201.1" =
      some (⟨"100.1", "C1", [⟨"U1", "201.1"⟩], [], 7⟩, "201.1") :=
  (reverse_index_injective _
    (ReachableStore.originStep []
      ⟨fun e => if e == "a@x.com" then LookupRes.found "U1" else LookupRes.missing,
       fun _ => some "201.1"⟩
      ⟨"Email Recipients\na@x.com\nEmail Subject\ns", none, "C1", "100.1"⟩ 7
      ReachableStore.empty
      ⟨by decide, by decide⟩)).2.2
    "201.1" ⟨"100.1", "C1", [⟨"U1", "201.1"⟩], [], 7⟩ (by decide) (by decide)

end HappyFox
